import Mathlib

/-!
Verification of the fishoilproof receipt engine.

This file gives a shallow embedding of the core of the repository:
canonical payload hashing (`src/core.py`), the Merkle accumulator, the
receipt envelope builder `emit_receipt`, the ledger (modelled as an explicit
list of receipts threaded through every operation), the five stage
validators (`catch.py`, `processing.py`, `testing.py`, `encapsulation.py`,
`distribution.py`), chain verification (`chain.py`) and the fraud
detectors (`fraud.py`).

Modelling conventions:
- Python dicts become insertion-ordered association lists `List (String × Val)`
  with Python's overwrite-in-place update semantics.
- Python floats become exact rationals `ℚ`; `round` is round-half-to-even.
- The external hash libraries (`hashlib.sha256`, `blake3`) are parameters
  `sha`, `bl`, `b3` of the development: every theorem holds for arbitrary
  digest functions, and collision-freeness is taken as an explicit local
  hypothesis exactly where a claim needs it.
- `datetime.now` is an explicit timestamp argument; `datetime.fromisoformat`
  (an external library routine) is a Boolean parameter `isoOk`.
- File I/O (`receipts.jsonl`) is replaced by explicit ledger-list passing:
  an append to the file is an append to the list.
-/

namespace FishOil

/-- JSON-style values stored in receipt fields: the Python strings, ints,
floats, bools, None, and nested dicts that appear in payloads. -/
inductive Val where
  | str (s : String)
  | int (n : Int)
  | rat (q : ℚ)
  | bool (b : Bool)
  | null
  | obj (fields : List (String × Val))

abbrev Dict := List (String × Val)
abbrev Receipt := Dict
abbrev Ledger := List Receipt

def keysOf {α : Type} (d : List (String × α)) : List String := d.map Prod.fst

/-- Keyed overwrite of a single binding: replace the value of every binding
of `k` (a Python dict holds at most one), leave other bindings unchanged. -/
def updA {α : Type} (k : String) (v : α) (p : String × α) : String × α :=
  if p.1 == k then (k, v) else p

/-- Python `d[k] = v`: overwrite the value in place if the key is present,
otherwise append the new binding at the end. -/
def dictSet (d : Dict) (k : String) (v : Val) : Dict :=
  if d.any (fun p => p.1 == k) then d.map (updA k v)
  else d ++ [(k, v)]

/-- Python `d.update(u)`: fold the overwrite-or-append update over `u`. -/
def dictUpdate (d : Dict) (u : Dict) : Dict :=
  u.foldl (fun acc p => dictSet acc p.1 p.2) d

/-- Python `d.get(k)` before defaulting: the first binding of `k`, if any. -/
def dictGet (d : Dict) (k : String) : Option Val :=
  (d.find? (fun p => p.1 == k)).map Prod.snd

/-- Python `d.get(k)` (default `None`). -/
def valGet (d : Dict) (k : String) : Val := (dictGet d k).getD .null

/-- Python truthiness of a value (`if not x` tests). -/
def isTruthy : Val → Bool
  | .str s => !(s == "")
  | .int n => !(n == 0)
  | .rat q => !(decide (q = 0))
  | .bool b => b
  | .null => false
  | .obj l => !l.isEmpty

mutual
/-- Python `==` on values (only ever applied to scalars in the verified code). -/
def valEqB : Val → Val → Bool
  | .str a, .str b => a == b
  | .int a, .int b => a == b
  | .rat a, .rat b => decide (a = b)
  | .bool a, .bool b => a == b
  | .null, .null => true
  | .obj a, .obj b => entsEqB a b
  | _, _ => false

/-- Pointwise equality of binding lists. -/
def entsEqB : List (String × Val) → List (String × Val) → Bool
  | [], [] => true
  | (k, v) :: r, (k2, v2) :: r2 => k == k2 && valEqB v v2 && entsEqB r r2
  | _, _ => false
end

/-- Lexicographic comparison of character lists by code point, as Python
compares strings when sorting dict keys. -/
def lexLe : List Char → List Char → Bool
  | [], _ => true
  | _ :: _, [] => false
  | a :: as, b :: bs =>
    if a.toNat = b.toNat then lexLe as bs else decide (a.toNat < b.toNat)

def strLe (a b : String) : Bool := lexLe a.data b.data

/-- Insert a keyed element into a key-sorted list (stable: an element goes
in front of elements with an equal key). -/
def insertByKey {α : Type} (p : String × α) : List (String × α) → List (String × α)
  | [] => [p]
  | q :: rest => if strLe p.1 q.1 then p :: q :: rest else q :: insertByKey p rest

/-- Stable insertion sort by key, as `sort_keys=True` sorts dict keys. -/
def sortByKey {α : Type} : List (String × α) → List (String × α)
  | [] => []
  | p :: rest => insertByKey p (sortByKey rest)

/-- JSON string escaping for the two characters the verified payloads can
contain (backslash and double quote); other characters pass through. -/
def escChar (c : Char) : List Char :=
  if c = '\\' then ['\\', '\\'] else if c = '"' then ['\\', '"'] else [c]

def escChars : List Char → List Char
  | [] => []
  | c :: cs => escChar c ++ escChars cs

def escape (s : String) : String := String.mk (escChars s.data)

/-- Decimal-style rendering of a rational (stands in for Python float repr;
no claim inspects the digits, only injectivity on distinct payload values
matters, and the rendering is injective on `ℚ`). -/
def ratRepr (q : ℚ) : String :=
  if q.den = 1 then toString q.num ++ ".0"
  else toString q.num ++ "/" ++ toString q.den

/-- Join with the default `json.dumps` item separator. -/
def joinComma : List String → String
  | [] => ""
  | [x] => x
  | x :: y :: rest => x ++ ", " ++ joinComma (y :: rest)

mutual
/-- Canonical serialization of a value, mirroring
`json.dumps(..., sort_keys=True, default=str)`: objects render their
entries sorted by key with `", "`/`": "` separators. -/
def serVal : Val → String
  | .str s => "\"" ++ escape s ++ "\""
  | .int n => toString n
  | .rat q => ratRepr q
  | .bool b => if b then "true" else "false"
  | .null => "null"
  | .obj l => "\x7b" ++ joinComma ((sortByKey (serEntries l)).map Prod.snd) ++ "\x7d"

/-- Rendered entries of an object, keyed for sorting. -/
def serEntries : List (String × Val) → List (String × String)
  | [] => []
  | (k, v) :: rest => (k, "\"" ++ escape k ++ "\": " ++ serVal v) :: serEntries rest
end

/-- Canonical byte form of a dict: `json.dumps(d, sort_keys=True, default=str)`. -/
def jsonDumps (d : Dict) : String := serVal (.obj d)

/-- Rendered form of a single object entry. -/
def serEntry (k : String) (v : Val) : String := "\"" ++ escape k ++ "\": " ++ serVal v

/-- All but the last item of a comma join, with its trailing separator. -/
def joinLead : List String → String
  | [] => ""
  | x :: rest => x ++ ", " ++ joinLead rest

/-- Remainder of a comma join after some item, with its leading separator. -/
def joinTail : List String → String
  | [] => ""
  | x :: rest => ", " ++ joinComma (x :: rest)

mutual
/-- Python `repr`-style rendering (used inside `str` of a dict). -/
def pyRepr : Val → String
  | .str s => "\x27" ++ s ++ "\x27"
  | .int n => toString n
  | .rat q => ratRepr q
  | .bool b => if b then "True" else "False"
  | .null => "None"
  | .obj l => "\x7b" ++ joinComma (pyEntries l) ++ "\x7d"

/-- Rendered entries of a dict under Python `str`. -/
def pyEntries : List (String × Val) → List String
  | [] => []
  | (k, v) :: rest => ("\x27" ++ k ++ "\x27: " ++ pyRepr v) :: pyEntries rest
end

/-- Python `str(v)`, as applied to receipt field values for the Merkle leaves
and to values interpolated into messages. -/
def pyStr : Val → String
  | .str s => s
  | v => pyRepr v

abbrev Bytes := List Nat

/-- UTF-8 encoding of a string (code points; identical on the ASCII data the
verified payloads use). -/
def strBytes (s : String) : Bytes := s.data.map Char.toNat

def hexDigit (n : Nat) : Char := "0123456789abcdef".data.getD n '0'

def byteHex (n : Nat) : List Char := [hexDigit (n / 16 % 16), hexDigit (n % 16)]

/-- Hex rendering of a digest, as `.hex()` / `.hexdigest()`. -/
def bytesHex (bs : Bytes) : String := String.mk (List.flatten (bs.map byteHex))

/-- Keep a binding when rebuilding the hashed view of a receipt: everything
except the two hash fields. -/
def notHashKey (p : String × Val) : Bool :=
  !(p.1 == "payload_hash") && !(p.1 == "merkle_root")

/-- Keep a binding when comparing two receipts on everything except the
timestamp and the two derived hash fields (used to state claim C7). -/
def notTsHashKey (p : String × Val) : Bool :=
  !(p.1 == "ts") && !(p.1 == "payload_hash") && !(p.1 == "merkle_root")

section Engine

variable (sha bl : Bytes → String) (b3 : Bytes → Bytes)

/-- Dual hash in `SHA256_<hex>:BLAKE3_<hex>` format (`core.dual_hash`);
`sha` and `bl` are the external hex-digest functions. -/
def dual_hash (data : String) : String :=
  "SHA256_" ++ sha (strBytes data) ++ ":BLAKE3_" ++ bl (strBytes data)

/-- One bottom-up pairing pass of the Merkle tree; an odd trailing node is
combined with a duplicate of itself (`core.merkle_root` inner loop). -/
def pairLevel : List Bytes → List Bytes
  | [] => []
  | [x] => [b3 (x ++ x)]
  | x :: y :: rest => b3 (x ++ y) :: pairLevel rest

/-- The `while len(leaves) > 1` loop of `core.merkle_root`; the fuel bound
`leaves.length` always suffices because every pass halves the level. -/
def buildLevels : Nat → List Bytes → Bytes
  | _, [] => []
  | _, [x] => x
  | 0, x :: _ => x
  | fuel + 1, x :: y :: rest => buildLevels fuel (pairLevel b3 (x :: y :: rest))

/-- BLAKE3 Merkle tree root over a list of strings (`core.merkle_root`):
empty input yields the fixed sentinel `blake3(b"empty")`, otherwise the
leaves are hashed and paired bottom-up. -/
def merkle_root (items : List String) : String :=
  if items.isEmpty then bytesHex (b3 (strBytes "empty"))
  else
    bytesHex (buildLevels b3 items.length (items.map (fun it => b3 (strBytes it))))

def DEFAULT_TENANT : String := "fishoilproof-demo"

/-- Resolved tenant id: Python `tenant_id or DEFAULT_TENANT`. -/
def tenantDefault : Option String → String
  | none => DEFAULT_TENANT
  | some t => if t == "" then DEFAULT_TENANT else t

/-- The envelope of `core.emit_receipt` before its hash fields are added:
the three metadata fields merged (Python `dict.update`) with the payload. -/
def envOf (receipt_type : String) (payload : Dict) (ts : String)
    (tenant_id : Option String) : Dict :=
  dictUpdate [("receipt_type", .str receipt_type), ("ts", .str ts),
              ("tenant_id", .str (tenantDefault tenant_id))] payload

/-- Emit a receipt to the append-only ledger (`core.emit_receipt`): build the
envelope, hash its canonical bytes, add the Merkle root over the string form
of all field values, and append the finished receipt. The wall-clock
timestamp is the explicit `ts` argument. -/
def emit_receipt (receipt_type : String) (payload : Dict) (ts : String)
    (tenant_id : Option String) (ledger : Ledger) : Receipt × Ledger :=
  let receipt : Dict := envOf receipt_type payload ts tenant_id
  let receipt := dictSet receipt "payload_hash"
    (.str (dual_hash sha bl (jsonDumps receipt)))
  let receipt := dictSet receipt "merkle_root"
    (.str (merkle_root b3 (receipt.map (fun p => pyStr p.2))))
  (receipt, ledger ++ [receipt])

/-- Find the first receipt matching a type and a field value
(`core.find_receipt`). -/
def find_receipt (receipt_type : String) (key : String) (value : String)
    (ledger : Ledger) : Option Receipt :=
  ledger.find? (fun r =>
    valEqB (valGet r "receipt_type") (.str receipt_type) &&
    valEqB (valGet r key) (.str value))

/-- Recompute the payload hash of a stored receipt from its own fields,
excluding `payload_hash` and `merkle_root`, and compare to the stored value
(`chain.verify_single_receipt`). -/
def verify_single_receipt (receipt : Receipt) : Bool :=
  match dictGet receipt "payload_hash" with
  | none => false
  | some stored =>
    if !isTruthy stored then false
    else
      let check := receipt.filter notHashKey
      valEqB stored (.str (dual_hash sha bl (jsonDumps check)))

end Engine

/-- Numeric content of a value (Python arithmetic on receipt fields). -/
def numOf : Val → ℚ
  | .rat q => q
  | .int n => (n : ℚ)
  | _ => 0

/-- Optional string as a stored field value (Python `None` becomes JSON null). -/
def optVal : Option String → Val
  | none => .null
  | some s => .str s

/-- Python truthiness of an optional string (`not fishery_cert_hash`). -/
def optTruthy : Option String → Bool
  | none => false
  | some s => !(s == "")

/-- Nested dict content of a value (`.get(..., \x7b\x7d)` then item access). -/
def objOf : Val → Dict
  | .obj l => l
  | _ => []

/-- First `n` characters of a string (Python slicing `s[:n]`). -/
def strTake (s : String) (n : Nat) : String := String.mk (s.data.take n)

/-- Round half to even (Python `round`), on an exact rational. -/
def roundHalfEven (q : ℚ) : Int :=
  let f := ⌊q⌋
  if q - (f : ℚ) < 1/2 then f
  else if q - (f : ℚ) > 1/2 then f + 1
  else if f % 2 = 0 then f else f + 1

/-- Python `round(q, n)` on an exact rational. -/
def roundTo (q : ℚ) (n : Nat) : ℚ := (roundHalfEven (q * 10 ^ n) : ℚ) / 10 ^ n

/-- Percent formatting `f"\x7bq:.1%\x7d"` (rendering details are opaque to every claim). -/
def pctRepr (v : Val) : String := ratRepr (roundTo (numOf v * 100) 1) ++ "%"

/-- Integer formatting `f"\x7bq:.0f\x7d"`. -/
def fmt0 (v : Val) : String := toString (roundHalfEven (numOf v))

/-- One-decimal formatting `f"\x7bq:.1f\x7d"`. -/
def fmt1 (q : ℚ) : String := ratRepr (roundTo q 1)

/-- Tenant id propagated from a source receipt into an anomaly receipt. -/
def tenantOf (r : Receipt) : Option String :=
  match valGet r "tenant_id" with
  | .str s => some s
  | _ => none

/-! Stage 1: catch (`catch.py`). -/

/-- FDA-approved fish oil species with common names (`catch.APPROVED_SPECIES`). -/
def APPROVED_SPECIES : List (String × String) :=
  [("Engraulis ringens", "Peruvian Anchoveta"),
   ("Sardina pilchardus", "European Sardine"),
   ("Brevoortia tyrannus", "Atlantic Menhaden"),
   ("Brevoortia patronus", "Gulf Menhaden"),
   ("Clupea harengus", "Atlantic Herring"),
   ("Scomber scombrus", "Atlantic Mackerel"),
   ("Mallotus villosus", "Capelin"),
   ("Salmo salar", "Atlantic Salmon"),
   ("Oncorhynchus mykiss", "Rainbow Trout"),
   ("Gadus morhua", "Atlantic Cod"),
   ("Pollachius virens", "Pollock"),
   ("Thunnus albacares", "Yellowfin Tuna"),
   ("Katsuwonus pelamis", "Skipjack Tuna"),
   ("Sprattus sprattus", "European Sprat"),
   ("Micromesistius poutassou", "Blue Whiting")]

def FISHERY_CERT_TYPES : List String := ["MSC", "FriendOfSea", "None"]

/-- Species allowlist membership (`catch.validate_species`). -/
def validate_species (species : String) : Bool :=
  (APPROVED_SPECIES.find? (fun p => p.1 == species)).isSome

/-- Common-name lookup for an approved species. -/
def speciesCommon (species : String) : String :=
  ((APPROVED_SPECIES.find? (fun p => p.1 == species)).map Prod.snd).getD ""

section Stages

variable (sha bl : Bytes → String) (b3 : Bytes → Bytes) (isoOk : String → Bool)

/-- Stage 1 catch receipt (`catch.create_catch_receipt`): species and
certification checks, then emit. Errors leave the ledger unchanged. -/
def create_catch_receipt (species fishery_registry import_docs_hash : String)
    (fishery_cert_type : String) (fishery_cert_id fishery_cert_hash : Option String)
    (tenant_id : Option String) (ts : String) (ledger : Ledger) :
    Ledger × Except String Receipt :=
  if !validate_species species then
    (ledger, .error ("Species not FDA-approved for fish oil: " ++ species))
  else if !(FISHERY_CERT_TYPES.contains fishery_cert_type) then
    (ledger, .error ("Invalid fishery cert type: " ++ fishery_cert_type))
  else if fishery_cert_type != "None" && !optTruthy fishery_cert_hash then
    (ledger, .error ("Fishery cert type " ++ fishery_cert_type ++
      " claimed but no cert hash provided"))
  else
    let payload : Dict :=
      [("species", .str species),
       ("species_common", .str (speciesCommon species)),
       ("fishery_approved", .bool true),
       ("fishery_registry", .str fishery_registry),
       ("import_docs_hash", .str import_docs_hash),
       ("fishery_cert_type", .str fishery_cert_type),
       ("fishery_cert_id", optVal fishery_cert_id),
       ("fishery_cert_hash", optVal fishery_cert_hash)]
    let er := emit_receipt sha bl b3 "catch" payload ts tenant_id ledger
    (er.2, .ok er.1)

/-! Stage 2: processing (`processing.py`). -/

def EXTRACTION_METHODS : List String :=
  ["MolecularDistillation", "Winterization", "SupercriticalCO2"]

def GMP_CERT_TYPES : List String := ["NSF", "USP", "Other"]

def YIELD_MIN : ℚ := 12/100

def YIELD_MAX : ℚ := 18/100

/-- Yield validation (`processing.validate_yield`): non-positive input or
output is a stop; otherwise the exact ratio is classified LOW / NORMAL /
HIGH_DILUTION_FLAG against the expected band. -/
def validate_yield (input_kg output_kg : ℚ) : Except String (ℚ × String) :=
  if input_kg ≤ 0 ∨ output_kg ≤ 0 then
    .error ("Invalid yield values: input=" ++ ratRepr input_kg ++
      ", output=" ++ ratRepr output_kg)
  else
    let q := output_kg / input_kg
    if q < YIELD_MIN then .ok (q, "LOW")
    else if q > YIELD_MAX then .ok (q, "HIGH_DILUTION_FLAG")
    else .ok (q, "NORMAL")

/-- Stage 2 processing receipt (`processing.create_processing_receipt`). -/
def create_processing_receipt (facility_id facility_name gmp_cert_type gmp_cert_id
    gmp_cert_hash batch_id extraction_method : String) (extraction_temp_c : ℚ)
    (yield_input_kg yield_output_kg : ℚ) (previous_hash : String)
    (tenant_id : Option String) (ts : String) (ledger : Ledger) :
    Ledger × Except String Receipt :=
  if !(GMP_CERT_TYPES.contains gmp_cert_type) then
    (ledger, .error ("Invalid GMP cert type: " ++ gmp_cert_type))
  else if !(EXTRACTION_METHODS.contains extraction_method) then
    (ledger, .error ("Invalid extraction method: " ++ extraction_method))
  else if !(gmp_cert_hash.data.contains ':') then
    (ledger, .error "GMP cert hash must be dual-hash format (SHA256:BLAKE3)")
  else
    match validate_yield yield_input_kg yield_output_kg with
    | .error e => (ledger, .error e)
    | .ok yr =>
      let payload : Dict :=
        [("facility_id", .str facility_id),
         ("facility_name", .str facility_name),
         ("gmp_cert_type", .str gmp_cert_type),
         ("gmp_cert_id", .str gmp_cert_id),
         ("gmp_cert_hash", .str gmp_cert_hash),
         ("batch_id", .str batch_id),
         ("extraction_method", .str extraction_method),
         ("extraction_temp_c", .rat extraction_temp_c),
         ("yield_input_kg", .rat yield_input_kg),
         ("yield_output_kg", .rat yield_output_kg),
         ("yield_ratio", .rat (roundTo yr.1 4)),
         ("yield_expected_min", .rat YIELD_MIN),
         ("yield_expected_max", .rat YIELD_MAX),
         ("yield_status", .str yr.2),
         ("previous_hash", .str previous_hash)]
      let er := emit_receipt sha bl b3 "processing" payload ts tenant_id ledger
      (er.2, .ok er.1)

/-! Stage 3: testing (`testing.py`). -/

def LAB_CERT_TYPES : List String := ["ISO17025", "Other"]

def MERCURY_LIMIT : ℚ := 1/10

def PCBS_LIMIT : ℚ := 9/100

def DIOXINS_LIMIT : ℚ := 3

def PEROXIDE_LIMIT : ℚ := 5

def ANISIDINE_LIMIT : ℚ := 20

def TOTOX_LIMIT : ℚ := 26

def POTENCY_THRESHOLD : ℚ := 95/100

/-- Contaminant validation (`testing.validate_contaminants`). -/
def validate_contaminants (mercury pcbs dioxins : ℚ) : Dict :=
  let mercury_pass := decide (mercury ≤ MERCURY_LIMIT)
  let pcbs_pass := decide (pcbs ≤ PCBS_LIMIT)
  let dioxins_pass := decide (dioxins ≤ DIOXINS_LIMIT)
  [("mercury_ppm", .rat mercury),
   ("mercury_pass", .bool mercury_pass),
   ("pcbs_ppm", .rat pcbs),
   ("pcbs_pass", .bool pcbs_pass),
   ("dioxins_pg_per_g", .rat dioxins),
   ("dioxins_pass", .bool dioxins_pass),
   ("all_pass", .bool (mercury_pass && pcbs_pass && dioxins_pass))]

/-- Potency validation (`testing.validate_potency`). -/
def validate_potency (epa_mg dha_mg label_claim_mg : ℚ) : Dict :=
  let total := epa_mg + dha_mg
  [("epa_mg", .rat epa_mg),
   ("dha_mg", .rat dha_mg),
   ("total_omega3_mg", .rat total),
   ("label_claim_mg", .rat label_claim_mg),
   ("potency_pass", .bool (decide (total ≥ label_claim_mg * POTENCY_THRESHOLD)))]

/-- Oxidation validation (`testing.validate_oxidation`):
TOTOX = 2 * peroxide + anisidine, the stored value rounded to 2 decimals. -/
def validate_oxidation (peroxide anisidine : ℚ) : Dict :=
  let totox := 2 * peroxide + anisidine
  [("peroxide_meq_per_kg", .rat peroxide),
   ("anisidine", .rat anisidine),
   ("totox", .rat (roundTo totox 2)),
   ("oxidation_pass", .bool (decide (peroxide ≤ PEROXIDE_LIMIT) &&
      decide (anisidine ≤ ANISIDINE_LIMIT) && decide (totox ≤ TOTOX_LIMIT)))]

/-- Build and emit the testing receipt (`testing._emit_testing`). -/
def emit_testing (lab_name lab_cert_type lab_cert_id lab_cert_hash batch_id : String)
    (contaminants potency oxidation : Dict) (overall_pass : Bool)
    (previous_hash : String) (tenant_id : Option String) (ts : String)
    (ledger : Ledger) : Receipt × Ledger :=
  emit_receipt sha bl b3 "testing"
    [("lab_name", .str lab_name),
     ("lab_cert_type", .str lab_cert_type),
     ("lab_cert_id", .str lab_cert_id),
     ("lab_cert_hash", .str lab_cert_hash),
     ("batch_id", .str batch_id),
     ("contaminants", .obj contaminants),
     ("potency", .obj potency),
     ("oxidation", .obj oxidation),
     ("overall_pass", .bool overall_pass),
     ("previous_hash", .str previous_hash)] ts tenant_id ledger

/-- Stage 3 testing receipt (`testing.create_testing_receipt`): contaminant
or TOTOX ceiling breaches first emit the audit receipt, then fail with a
message that quotes the persisted receipt hash. -/
def create_testing_receipt (lab_name lab_cert_type lab_cert_id lab_cert_hash
    batch_id : String) (mercury_ppm pcbs_ppm dioxins_pg_per_g epa_mg dha_mg
    label_claim_mg peroxide_meq_per_kg anisidine : ℚ) (previous_hash : String)
    (tenant_id : Option String) (ts : String) (ledger : Ledger) :
    Ledger × Except String Receipt :=
  if !(LAB_CERT_TYPES.contains lab_cert_type) then
    (ledger, .error ("Invalid lab cert type: " ++ lab_cert_type))
  else if !(lab_cert_hash.data.contains ':') then
    (ledger, .error "Lab cert hash must be dual-hash format (SHA256:BLAKE3)")
  else
    let contaminants := validate_contaminants mercury_ppm pcbs_ppm dioxins_pg_per_g
    let potency := validate_potency epa_mg dha_mg label_claim_mg
    let oxidation := validate_oxidation peroxide_meq_per_kg anisidine
    let overall_pass := isTruthy (valGet contaminants "all_pass") &&
      isTruthy (valGet potency "potency_pass") &&
      isTruthy (valGet oxidation "oxidation_pass")
    if !isTruthy (valGet contaminants "all_pass") then
      let failed :=
        (if isTruthy (valGet contaminants "mercury_pass") then []
         else ["mercury=" ++ ratRepr mercury_ppm ++ "ppm (limit " ++
           ratRepr MERCURY_LIMIT ++ ")"]) ++
        (if isTruthy (valGet contaminants "pcbs_pass") then []
         else ["pcbs=" ++ ratRepr pcbs_ppm ++ "ppm (limit " ++
           ratRepr PCBS_LIMIT ++ ")"]) ++
        (if isTruthy (valGet contaminants "dioxins_pass") then []
         else ["dioxins=" ++ ratRepr dioxins_pg_per_g ++ "pg/g (limit " ++
           ratRepr DIOXINS_LIMIT ++ ")"])
      let er := emit_testing sha bl b3 lab_name lab_cert_type lab_cert_id
        lab_cert_hash batch_id contaminants potency oxidation overall_pass
        previous_hash tenant_id ts ledger
      (er.2, .error ("CONTAMINANT_EXCEED: " ++ joinComma failed ++
        ". Receipt emitted: " ++ pyStr (valGet er.1 "payload_hash")))
    else if numOf (valGet oxidation "totox") > TOTOX_LIMIT then
      let er := emit_testing sha bl b3 lab_name lab_cert_type lab_cert_id
        lab_cert_hash batch_id contaminants potency oxidation overall_pass
        previous_hash tenant_id ts ledger
      (er.2, .error ("TOTOX_EXCEED: " ++ pyStr (valGet oxidation "totox") ++
        " > " ++ ratRepr TOTOX_LIMIT ++ ". Receipt emitted: " ++
        pyStr (valGet er.1 "payload_hash")))
    else
      let er := emit_testing sha bl b3 lab_name lab_cert_type lab_cert_id
        lab_cert_hash batch_id contaminants potency oxidation overall_pass
        previous_hash tenant_id ts ledger
      (er.2, .ok er.1)

/-! Stage 4: encapsulation (`encapsulation.py`). -/

def FACILITY_CERT_TYPES : List String := ["NSF", "USP", "Other"]

/-- Stage 4 encapsulation receipt (`encapsulation.create_encapsulation_receipt`):
certificate checks, full-ledger lot-number uniqueness scan, fill-date parse
(`isoOk` models `datetime.fromisoformat`), then emit. -/
def create_encapsulation_receipt (facility_id facility_name facility_cert_type
    facility_cert_id facility_cert_hash lot_number fill_date batch_id : String)
    (capsule_count : Int) (mg_per_capsule : ℚ) (previous_hash : String)
    (tenant_id : Option String) (ts : String) (ledger : Ledger) :
    Ledger × Except String Receipt :=
  if !(FACILITY_CERT_TYPES.contains facility_cert_type) then
    (ledger, .error ("Invalid facility cert type: " ++ facility_cert_type))
  else if !(facility_cert_hash.data.contains ':') then
    (ledger, .error "Facility cert hash must be dual-hash format (SHA256:BLAKE3)")
  else if ledger.any (fun r =>
      valEqB (valGet r "receipt_type") (.str "encapsulation") &&
      valEqB (valGet r "lot_number") (.str lot_number)) then
    (ledger, .error ("Lot number already exists: " ++ lot_number))
  else if !(isoOk fill_date) then
    (ledger, .error ("Invalid fill_date format (must be ISO8601): " ++ fill_date))
  else
    let payload : Dict :=
      [("facility_id", .str facility_id),
       ("facility_name", .str facility_name),
       ("facility_cert_type", .str facility_cert_type),
       ("facility_cert_id", .str facility_cert_id),
       ("facility_cert_hash", .str facility_cert_hash),
       ("lot_number", .str lot_number),
       ("fill_date", .str fill_date),
       ("batch_id", .str batch_id),
       ("capsule_count", .int capsule_count),
       ("mg_per_capsule", .rat mg_per_capsule),
       ("previous_hash", .str previous_hash)]
    let er := emit_receipt sha bl b3 "encapsulation" payload ts tenant_id ledger
    (er.2, .ok er.1)

/-! Stage 5: distribution (`distribution.py`). -/

def COLD_CHAIN_TARGET_MIN : ℚ := 2

def COLD_CHAIN_TARGET_MAX : ℚ := 8

def COLD_CHAIN_MAX_DEVIATIONS : Int := 3

def qSum (l : List ℚ) : ℚ := l.foldl (· + ·) 0

def qMin : List ℚ → ℚ
  | [] => 0
  | x :: xs => xs.foldl min x

def qMax : List ℚ → ℚ
  | [] => 0
  | x :: xs => xs.foldl max x

/-- Cold chain validation (`distribution.validate_cold_chain`): an empty
temperature list disables tracking; otherwise stats, the count of readings
outside the 2–8°C band, and the pass flag. -/
def validate_cold_chain (temps : List ℚ) (duration_days : Int)
    (temp_log_hash : Option String) : Dict :=
  if temps.isEmpty then
    [("enabled", .bool false),
     ("avg_temp_c", .null),
     ("min_temp_c", .null),
     ("max_temp_c", .null),
     ("duration_days", .int duration_days),
     ("deviations_count", .int 0),
     ("temp_log_hash", optVal temp_log_hash),
     ("cold_chain_pass", .bool false)]
  else
    let deviations := (temps.filter (fun t =>
      decide (t < COLD_CHAIN_TARGET_MIN) || decide (t > COLD_CHAIN_TARGET_MAX))).length
    [("enabled", .bool true),
     ("avg_temp_c", .rat (roundTo (qSum temps / (temps.length : ℚ)) 2)),
     ("min_temp_c", .rat (roundTo (qMin temps) 2)),
     ("max_temp_c", .rat (roundTo (qMax temps) 2)),
     ("duration_days", .int duration_days),
     ("deviations_count", .int (deviations : Int)),
     ("temp_log_hash", optVal temp_log_hash),
     ("cold_chain_pass", .bool (decide (qMax temps ≤ COLD_CHAIN_TARGET_MAX) &&
        decide ((deviations : Int) ≤ COLD_CHAIN_MAX_DEVIATIONS)))]

/-- Stage 5 distribution receipt (`distribution.create_distribution_receipt`);
never raises. -/
def create_distribution_receipt (distributor_id distributor_name warehouse_id
    warehouse_location lot_number : String) (cold_chain_data : Option Dict)
    (previous_hash : String) (tenant_id : Option String) (ts : String)
    (ledger : Ledger) : Ledger × Except String Receipt :=
  let cc := cold_chain_data.getD
    [("enabled", .bool false),
     ("avg_temp_c", .null),
     ("min_temp_c", .null),
     ("max_temp_c", .null),
     ("duration_days", .int 0),
     ("deviations_count", .int 0),
     ("temp_log_hash", .null),
     ("cold_chain_pass", .bool false)]
  let payload : Dict :=
    [("distributor_id", .str distributor_id),
     ("distributor_name", .str distributor_name),
     ("warehouse_id", .str warehouse_id),
     ("warehouse_location", .str warehouse_location),
     ("lot_number", .str lot_number),
     ("cold_chain", .obj cc),
     ("previous_hash", .str previous_hash)]
  let er := emit_receipt sha bl b3 "distribution" payload ts tenant_id ledger
  (er.2, .ok er.1)

end Stages

/-! Chain verification (`chain.py`). -/

/-- Result of `chain.verify_chain`. -/
structure ChainResult where
  lot_number : String
  chain_length : Nat
  chain_valid : Bool
  receipts : List (String × Receipt)
  errors : List String
  verified_at : String

/-- Find a receipt by its stored payload hash (`chain._find_receipt_by_hash`). -/
def findReceiptByHash (h : Val) (receipts : Ledger) : Option Receipt :=
  receipts.find? (fun r => valEqB (valGet r "payload_hash") h)

/-- Find the distribution receipt for a lot (`chain._find_distribution_by_lot`). -/
def findDistributionByLot (lot : String) (receipts : Ledger) : Option Receipt :=
  receipts.find? (fun r =>
    valEqB (valGet r "receipt_type") (.str "distribution") &&
    valEqB (valGet r "lot_number") (.str lot))

/-- Find the encapsulation receipt for a lot (`chain._find_encapsulation_by_lot`). -/
def findEncapsulationByLot (lot : String) (receipts : Ledger) : Option Receipt :=
  receipts.find? (fun r =>
    valEqB (valGet r "receipt_type") (.str "encapsulation") &&
    valEqB (valGet r "lot_number") (.str lot))

/-- Keyed overwrite-or-append on a string-keyed association list (the
`result["receipts"]` dict of `verify_chain`). -/
def assocSet (d : List (String × Receipt)) (k : String) (v : Receipt) :
    List (String × Receipt) :=
  if d.any (fun p => p.1 == k) then d.map (fun p => if p.1 == k then (k, v) else p)
  else d ++ [(k, v)]

/-- Backward walk of `verify_chain` (step 3): follow `previous_hash` hops
expecting the given stage types; a missing or unresolvable hash stops the
walk, a type mismatch only records an error. -/
def walkBack (receipts : Ledger) : List String → Receipt → List Receipt × List String
  | [], _ => ([], [])
  | expected :: rest, current =>
    let ph := valGet current "previous_hash"
    if !isTruthy ph then
      ([], ["Missing previous_hash on " ++ pyStr (valGet current "receipt_type") ++
        " receipt"])
    else
      match findReceiptByHash ph receipts with
      | none => ([], ["Cannot find receipt with hash " ++ strTake (pyStr ph) 40 ++ "..."])
      | some pr =>
        let tErrs := if valEqB (valGet pr "receipt_type") (.str expected) then []
          else ["Expected " ++ expected ++ " receipt but found " ++
            pyStr (valGet pr "receipt_type")]
        let res := walkBack receipts rest pr
        (pr :: res.1, tErrs ++ res.2)

/-- Verify the full 5-receipt chain for a lot (`chain.verify_chain`): locate
distribution and encapsulation, check their link, walk back through testing,
processing, catch, re-verify every collected receipt hash, and accumulate
all problems as error strings. -/
def verify_chain (sha bl : Bytes → String) (lot_number : String)
    (receipts : Ledger) (ts : String) : ChainResult :=
  match findDistributionByLot lot_number receipts with
  | none =>
    ⟨lot_number, 0, false, [],
     ["No distribution receipt found for lot " ++ lot_number], ts⟩
  | some dist =>
    match findEncapsulationByLot lot_number receipts with
    | none =>
      ⟨lot_number, 0, false, [],
       ["No encapsulation receipt found for lot " ++ lot_number], ts⟩
    | some encap =>
      let linkErrs :=
        if valEqB (valGet dist "previous_hash") (valGet encap "payload_hash") then []
        else ["Distribution previous_hash does not match encapsulation payload_hash"]
      let walked := walkBack receipts ["testing", "processing", "catch"] encap
      let chain := dist :: encap :: walked.1
      let hashErrs := (chain.filter (fun r => !verify_single_receipt sha bl r)).map
        (fun r => "Hash verification failed for " ++
          pyStr (valGet r "receipt_type") ++ " receipt")
      let errs := linkErrs ++ walked.2 ++ hashErrs
      ⟨lot_number, chain.length, errs.isEmpty && chain.length == 5,
       chain.foldl (fun acc r => assocSet acc (pyStr (valGet r "receipt_type")) r) [],
       errs, ts⟩

/-! Fraud detection (`fraud.py`). -/

section Fraud

variable (sha bl : Bytes → String) (b3 : Bytes → Bytes)

/-- Yield anomaly detector (`fraud.detect_yield_anomaly`). -/
def detect_yield_anomaly (processing_receipt : Receipt) (ts : String)
    (ledger : Ledger) : Ledger × Option Receipt :=
  let ys := valGet processing_receipt "yield_status"
  let yr := (dictGet processing_receipt "yield_ratio").getD (.int 0)
  if valEqB ys (.str "HIGH_DILUTION_FLAG") then
    let er := emit_receipt sha bl b3 "anomaly"
      [("anomaly_type", .str "YIELD_HIGH"),
       ("severity", .str "FLAG"),
       ("source_receipt_hash", (dictGet processing_receipt "payload_hash").getD (.str "")),
       ("details", .obj
         [("yield_ratio", yr),
          ("yield_input_kg", valGet processing_receipt "yield_input_kg"),
          ("yield_output_kg", valGet processing_receipt "yield_output_kg"),
          ("expected_max", (dictGet processing_receipt "yield_expected_max").getD (.rat (18/100))),
          ("message", .str ("Yield " ++ pctRepr yr ++
            " exceeds expected max 18%. Possible dilution with cheaper oils."))])]
      ts (tenantOf processing_receipt) ledger
    (er.2, some er.1)
  else if valEqB ys (.str "LOW") then
    let er := emit_receipt sha bl b3 "anomaly"
      [("anomaly_type", .str "YIELD_LOW"),
       ("severity", .str "WARNING"),
       ("source_receipt_hash", (dictGet processing_receipt "payload_hash").getD (.str "")),
       ("details", .obj
         [("yield_ratio", yr),
          ("yield_input_kg", valGet processing_receipt "yield_input_kg"),
          ("yield_output_kg", valGet processing_receipt "yield_output_kg"),
          ("expected_min", (dictGet processing_receipt "yield_expected_min").getD (.rat (12/100))),
          ("message", .str ("Yield " ++ pctRepr yr ++
            " below expected min 12%. Possible extraction issue."))])]
      ts (tenantOf processing_receipt) ledger
    (er.2, some er.1)
  else (ledger, none)

/-- Label fraud detector (`fraud.detect_label_fraud`). -/
def detect_label_fraud (testing_receipt : Receipt) (ts : String)
    (ledger : Ledger) : Ledger × Option Receipt :=
  let potency := objOf ((dictGet testing_receipt "potency").getD (.obj []))
  if !isTruthy ((dictGet potency "potency_pass").getD (.bool true)) then
    let total := (dictGet potency "total_omega3_mg").getD (.int 0)
    let claim := (dictGet potency "label_claim_mg").getD (.int 0)
    let pct := if numOf claim > 0 then numOf total / numOf claim * 100 else 0
    let er := emit_receipt sha bl b3 "anomaly"
      [("anomaly_type", .str "LABEL_FRAUD"),
       ("severity", .str "FLAG"),
       ("source_receipt_hash", (dictGet testing_receipt "payload_hash").getD (.str "")),
       ("details", .obj
         [("actual_mg", total),
          ("label_claim_mg", claim),
          ("percentage_of_claim", .rat (roundTo pct 1)),
          ("threshold", .str "95%"),
          ("message", .str ("Actual potency " ++ fmt0 total ++ "mg is " ++
            fmt1 pct ++ "% of label claim " ++ fmt0 claim ++
            "mg (below 95% threshold)."))])]
      ts (tenantOf testing_receipt) ledger
    (er.2, some er.1)
  else (ledger, none)

/-- Contaminant exceedance detector (`fraud.detect_contaminant_exceed`). -/
def detect_contaminant_exceed (testing_receipt : Receipt) (ts : String)
    (ledger : Ledger) : Ledger × Option Receipt :=
  let contaminants := objOf ((dictGet testing_receipt "contaminants").getD (.obj []))
  if !isTruthy ((dictGet contaminants "all_pass").getD (.bool true)) then
    let failed : Dict :=
      (if isTruthy ((dictGet contaminants "mercury_pass").getD (.bool true)) then []
       else [("mercury_ppm", valGet contaminants "mercury_ppm")]) ++
      (if isTruthy ((dictGet contaminants "pcbs_pass").getD (.bool true)) then []
       else [("pcbs_ppm", valGet contaminants "pcbs_ppm")]) ++
      (if isTruthy ((dictGet contaminants "dioxins_pass").getD (.bool true)) then []
       else [("dioxins_pg_per_g", valGet contaminants "dioxins_pg_per_g")])
    let er := emit_receipt sha bl b3 "anomaly"
      [("anomaly_type", .str "CONTAMINANT_EXCEED"),
       ("severity", .str "REJECT"),
       ("source_receipt_hash", (dictGet testing_receipt "payload_hash").getD (.str "")),
       ("details", .obj
         [("failed_contaminants", .obj failed),
          ("message", .str "One or more contaminants exceed FDA/GOED limits. Product cannot ship.")])]
      ts (tenantOf testing_receipt) ledger
    (er.2, some er.1)
  else (ledger, none)

/-- Cold chain degradation detector (`fraud.detect_cold_chain_degradation`). -/
def detect_cold_chain_degradation (distribution_receipt : Receipt) (ts : String)
    (ledger : Ledger) : Ledger × Option Receipt :=
  let cold_chain := objOf ((dictGet distribution_receipt "cold_chain").getD (.obj []))
  if !isTruthy ((dictGet cold_chain "enabled").getD (.bool false)) then
    (ledger, none)
  else
    let max_temp := valGet cold_chain "max_temp_c"
    let deviations := (dictGet cold_chain "deviations_count").getD (.int 0)
    if !(valEqB max_temp .null) && decide (numOf max_temp > 8) then
      let er := emit_receipt sha bl b3 "anomaly"
        [("anomaly_type", .str "COLD_CHAIN_DEGRADATION"),
         ("severity", .str "FLAG"),
         ("source_receipt_hash", (dictGet distribution_receipt "payload_hash").getD (.str "")),
         ("details", .obj
           [("max_temp_c", max_temp),
            ("avg_temp_c", valGet cold_chain "avg_temp_c"),
            ("deviations_count", deviations),
            ("threshold_max_c", .rat 8),
            ("message", .str ("Max temperature " ++ pyStr max_temp ++
              "°C exceeds 8°C threshold. Oxidation risk."))])]
        ts (tenantOf distribution_receipt) ledger
      (er.2, some er.1)
    else if numOf deviations > 3 then
      let er := emit_receipt sha bl b3 "anomaly"
        [("anomaly_type", .str "COLD_CHAIN_DEGRADATION"),
         ("severity", .str "WARNING"),
         ("source_receipt_hash", (dictGet distribution_receipt "payload_hash").getD (.str "")),
         ("details", .obj
           [("max_temp_c", max_temp),
            ("deviations_count", deviations),
            ("threshold_deviations", .int 3),
            ("message", .str (pyStr deviations ++
              " temperature deviations exceed threshold of 3."))])]
        ts (tenantOf distribution_receipt) ledger
      (er.2, some er.1)
    else (ledger, none)

/-- Dispatch of `fraud.run_all_fraud_checks` for a single receipt. -/
def fraudStep (r : Receipt) (ts : String) (ledger : Ledger) :
    Ledger × List Receipt :=
  let rt := valGet r "receipt_type"
  if valEqB rt (.str "processing") then
    let dr := detect_yield_anomaly sha bl b3 r ts ledger
    (dr.1, dr.2.toList)
  else if valEqB rt (.str "testing") then
    let d1 := detect_label_fraud sha bl b3 r ts ledger
    let d2 := detect_contaminant_exceed sha bl b3 r ts d1.1
    (d2.1, d1.2.toList ++ d2.2.toList)
  else if valEqB rt (.str "distribution") then
    let dr := detect_cold_chain_degradation sha bl b3 r ts ledger
    (dr.1, dr.2.toList)
  else (ledger, [])

/-- Run all fraud detectors over a chain (`fraud.run_all_fraud_checks`):
iterate the given receipts in order, dispatch by receipt type, collect all
anomaly receipts (each already appended to the ledger by its emit). -/
def run_all_fraud_checks (chain : List Receipt) (ts : String) (ledger : Ledger) :
    Ledger × List Receipt :=
  match chain with
  | [] => (ledger, [])
  | r :: rest =>
    let st := fraudStep sha bl b3 r ts ledger
    let more := run_all_fraud_checks rest ts st.1
    (more.1, st.2 ++ more.2)

end Fraud

/-! Specification-side notions used to state the claims. -/

/-- Stored payload hash of a receipt, as a string. -/
def hashOf (r : Receipt) : String := pyStr (valGet r "payload_hash")

/-- Substring occurrence (the failure message quotes the persisted hash). -/
def containsStr (s sub : String) : Prop := ∃ a b, s = a ++ sub ++ b

/-- The `oxidation_pass` flag stored inside a testing receipt's nested
`oxidation` block. -/
def oxPassOf (r : Receipt) : Val := valGet (objOf (valGet r "oxidation")) "oxidation_pass"

/-- One resolved hop of the backward walk, in the spec's terms: the current
receipt has a truthy `previous_hash`, some receipt carries that hash, and
that receipt has the expected stage type. -/
def hopOk (receipts : Ledger) (current : Receipt) (expected : String) :
    Option Receipt :=
  if !isTruthy (valGet current "previous_hash") then none
  else
    match findReceiptByHash (valGet current "previous_hash") receipts with
    | none => none
    | some pr =>
      if valEqB (valGet pr "receipt_type") (.str expected) then some pr else none

/-- The spec's validity condition for a lot's chain: distribution and
encapsulation receipts exist and are linked, the three backward hops resolve
with the expected types (so exactly five receipts are collected), and every
collected receipt's recomputed hash matches its stored value. -/
def chainSpec (sha bl : Bytes → String) (lot : String) (receipts : Ledger) : Prop :=
  match findDistributionByLot lot receipts with
  | none => False
  | some dist =>
    match findEncapsulationByLot lot receipts with
    | none => False
    | some encap =>
      valEqB (valGet dist "previous_hash") (valGet encap "payload_hash") = true ∧
      ∃ t p c,
        hopOk receipts encap "testing" = some t ∧
        hopOk receipts t "processing" = some p ∧
        hopOk receipts p "catch" = some c ∧
        (verify_single_receipt sha bl dist && verify_single_receipt sha bl encap &&
         verify_single_receipt sha bl t && verify_single_receipt sha bl p &&
         verify_single_receipt sha bl c) = true

/-- Receipt-type test used by the uniqueness scan. -/
def isEncapsulation (r : Receipt) : Bool :=
  valEqB (valGet r "receipt_type") (.str "encapsulation")

/-- Lot numbers of all encapsulation receipts, in ledger order. -/
def encapLots (L : Ledger) : List Val :=
  (L.filter isEncapsulation).map (fun r => valGet r "lot_number")

/-- No value occurs twice (under Python equality). -/
def nodupValB : List Val → Bool
  | [] => true
  | v :: rest => !(rest.any (fun w => valEqB v w)) && nodupValB rest

/-- Invariant: at most one encapsulation receipt per lot number. -/
def uniqueEncapLots (L : Ledger) : Prop := nodupValB (encapLots L) = true

/-- One call to a stage validator, with all of its raw inputs (the operations
through which ledgers are reachable, for the uniqueness invariant). -/
inductive StageOp where
  | catchOp (species fishery_registry import_docs_hash fishery_cert_type : String)
      (fishery_cert_id fishery_cert_hash tenant_id : Option String) (ts : String)
  | processingOp (facility_id facility_name gmp_cert_type gmp_cert_id gmp_cert_hash
      batch_id extraction_method : String) (extraction_temp_c yield_input_kg
      yield_output_kg : ℚ) (previous_hash : String) (tenant_id : Option String)
      (ts : String)
  | testingOp (lab_name lab_cert_type lab_cert_id lab_cert_hash batch_id : String)
      (mercury_ppm pcbs_ppm dioxins_pg_per_g epa_mg dha_mg label_claim_mg
      peroxide_meq_per_kg anisidine : ℚ) (previous_hash : String)
      (tenant_id : Option String) (ts : String)
  | encapsulationOp (facility_id facility_name facility_cert_type facility_cert_id
      facility_cert_hash lot_number fill_date batch_id : String) (capsule_count : Int)
      (mg_per_capsule : ℚ) (previous_hash : String) (tenant_id : Option String)
      (ts : String)
  | distributionOp (distributor_id distributor_name warehouse_id warehouse_location
      lot_number : String) (cold_chain_data : Option Dict) (previous_hash : String)
      (tenant_id : Option String) (ts : String)

/-- Run one stage validator on a ledger, keeping the resulting ledger whether
the call succeeded or stopped. -/
def runStage (sha bl : Bytes → String) (b3 : Bytes → Bytes) (isoOk : String → Bool) :
    StageOp → Ledger → Ledger × Except String Receipt
  | .catchOp a1 a2 a3 a4 a5 a6 a7 a8, L =>
    create_catch_receipt sha bl b3 a1 a2 a3 a4 a5 a6 a7 a8 L
  | .processingOp a1 a2 a3 a4 a5 a6 a7 a8 a9 a10 a11 a12 a13, L =>
    create_processing_receipt sha bl b3 a1 a2 a3 a4 a5 a6 a7 a8 a9 a10 a11 a12 a13 L
  | .testingOp a1 a2 a3 a4 a5 a6 a7 a8 a9 a10 a11 a12 a13 a14 a15 a16, L =>
    create_testing_receipt sha bl b3 a1 a2 a3 a4 a5 a6 a7 a8 a9 a10 a11 a12 a13 a14 a15 a16 L
  | .encapsulationOp a1 a2 a3 a4 a5 a6 a7 a8 a9 a10 a11 a12 a13, L =>
    create_encapsulation_receipt sha bl b3 isoOk a1 a2 a3 a4 a5 a6 a7 a8 a9 a10 a11 a12 a13 L
  | .distributionOp a1 a2 a3 a4 a5 a6 a7 a8 a9, L =>
    create_distribution_receipt sha bl b3 a1 a2 a3 a4 a5 a6 a7 a8 a9 L

/-- Anomaly receipts produced for one receipt by the dispatch of
`run_all_fraud_checks` (their content does not depend on the ledger). -/
def anomaliesFor (sha bl : Bytes → String) (b3 : Bytes → Bytes) (ts : String)
    (r : Receipt) : List Receipt :=
  (fraudStep sha bl b3 r ts []).2

/-! Concrete instantiation used for witnesses and counterexamples: cheap
injective-in-practice stand-ins for the external digest functions, and a
fully built 5-stage demonstration chain. -/

def sha0 (bs : Bytes) : String :=
  toString (bs.foldl (fun a b => (a * 131 + b) % 1000000007) 7)

def bl0 (bs : Bytes) : String :=
  toString (bs.foldl (fun a b => (a * 137 + b) % 998244353) 11)

def b30 (bs : Bytes) : Bytes :=
  [bs.foldl (fun a b => (a * 131 + b) % 1000000007) 7]

def demo1 : Ledger × Except String Receipt :=
  create_catch_receipt sha0 bl0 b30 "Engraulis ringens" "PRODUCE Peru" "h:i"
    "None" none none none "T1" []

def catchR : Receipt := demo1.2.toOption.getD []

def demo2 : Ledger × Except String Receipt :=
  create_processing_receipt sha0 bl0 b30 "FAC-1" "Facility One" "NSF" "GMP-1"
    "x:y" "BATCH-1" "MolecularDistillation" 60 1000 150 (hashOf catchR) none
    "T2" demo1.1

def procR : Receipt := demo2.2.toOption.getD []

def demo3 : Ledger × Except String Receipt :=
  create_testing_receipt sha0 bl0 b30 "Lab" "ISO17025" "LC-1" "x:y" "BATCH-1"
    (mkRat 5 100) (mkRat 5 100) 2 500 500 1000 3 10 (hashOf procR) none "T3"
    demo2.1

def testR : Receipt := demo3.2.toOption.getD []

def demo4 : Ledger × Except String Receipt :=
  create_encapsulation_receipt sha0 bl0 b30 (fun _ => true) "ENC-1" "Encap One"
    "NSF" "FC-1" "x:y" "LOT-1" "2024-01-01" "BATCH-1" 100 500 (hashOf testR)
    none "T4" demo3.1

def encapR : Receipt := demo4.2.toOption.getD []

def demo5 : Ledger × Except String Receipt :=
  create_distribution_receipt sha0 bl0 b30 "DIST-1" "Dist One" "WH-1" "Loc"
    "LOT-1" (some (validate_cold_chain [4, 5, 6] 10 (some "x:y")))
    (hashOf encapR) none "T5" demo4.1

/-- A fully built, untampered 5-stage ledger for lot LOT-1. -/
def demoLedger : Ledger := demo5.1

/-- The demo ledger with a single stored field rewritten on the processing
line (`yield_output_kg` changed), leaving every `previous_hash` intact. -/
def mutatedLedger : Ledger := demoLedger.map (fun r =>
  if valEqB (valGet r "receipt_type") (.str "processing") then
    dictSet r "yield_output_kg" (.rat 999) else r)

/-- A processing receipt with HIGH_DILUTION_FLAG yield status. -/
def procHigh : Receipt :=
  (create_processing_receipt sha0 bl0 b30 "F" "F" "NSF" "G" "x:y" "B"
    "Winterization" 60 1000 220 "p:h" none "T7" []).2.toOption.getD []

/-- A distribution receipt with a failed cold chain (max 12°C). -/
def distBad : Receipt :=
  (create_distribution_receipt sha0 bl0 b30 "D" "D" "W" "L" "LOT-2"
    (some (validate_cold_chain [mkRat 21 10, mkRat 23 10, 12, mkRat 22 10,
      mkRat 21 10] 10 none)) "e:h" none "T8" []).2.toOption.getD []

/-! Auxiliary lemmas: strings. -/

theorem str_data_inj {a b : String} (h : a.data = b.data) : a = b := by
  cases a; cases b; exact congrArg String.mk h

theorem str_append_assoc (a b c : String) : a ++ b ++ c = a ++ (b ++ c) := by
  apply str_data_inj; simp [String.data_append]

theorem str_append_empty (a : String) : a ++ "" = a := by
  apply str_data_inj; simp [String.data_append]

theorem str_empty_append (a : String) : "" ++ a = a := by
  apply str_data_inj; simp [String.data_append]

theorem str_append_cancel {P S x y : String} (h : P ++ (x ++ S) = P ++ (y ++ S)) :
    x = y := by
  apply str_data_inj
  have h2 := congrArg String.data h
  simp only [String.data_append] at h2
  exact List.append_cancel_right (List.append_cancel_left h2)

/-! Auxiliary lemmas: association lists with string keys. -/

theorem updA_fst {α : Type} (k : String) (v : α) (p : String × α) :
    (updA k v p).1 = p.1 := by
  unfold updA; split
  · next h => simp only [beq_iff_eq] at h; exact h.symm
  · rfl

theorem keysOf_map_updA {α : Type} (k : String) (v : α) (d : List (String × α)) :
    keysOf (d.map (updA k v)) = keysOf d := by
  unfold keysOf
  rw [List.map_map]
  exact List.map_congr_left (fun p _ => updA_fst k v p)

theorem any_keys_iff {α : Type} (d : List (String × α)) (k : String) :
    (d.any (fun p => p.1 == k)) = true ↔ k ∈ keysOf d := by
  simp only [List.any_eq_true, keysOf, List.mem_map, beq_iff_eq]

theorem dictSet_of_mem {d : Dict} {k : String} (h : k ∈ keysOf d) (v : Val) :
    dictSet d k v = d.map (updA k v) := by
  unfold dictSet
  rw [if_pos ((any_keys_iff d k).2 h)]

theorem dictSet_of_not_mem {d : Dict} {k : String} (h : k ∉ keysOf d) (v : Val) :
    dictSet d k v = d ++ [(k, v)] := by
  unfold dictSet
  rw [if_neg (fun hc => h ((any_keys_iff d k).1 hc))]

theorem map_updA_id_of_not_mem {α : Type} {d : List (String × α)} {k : String}
    (h : k ∉ keysOf d) (v : α) : d.map (updA k v) = d := by
  induction d with
  | nil => rfl
  | cons p rest ih =>
    simp only [keysOf, List.map_cons, List.mem_cons, not_or] at h ⊢
    have hp : updA k v p = p := by
      unfold updA
      rw [if_neg]
      simp only [beq_iff_eq]
      exact fun he => h.1 (by simpa [keysOf] using he.symm)
    rw [hp, ih (by simpa [keysOf] using h.2)]

theorem dictGet_cons (p : String × Val) (d : Dict) (k : String) :
    dictGet (p :: d) k = if p.1 == k then some p.2 else dictGet d k := by
  by_cases h : (p.1 == k) = true <;> simp [dictGet, List.find?_cons, h]

theorem dictGet_append_of_not_mem {d : Dict} {k : String} (h : k ∉ keysOf d)
    (l : Dict) : dictGet (d ++ l) k = dictGet l k := by
  induction d with
  | nil => rfl
  | cons p rest ih =>
    simp only [keysOf, List.map_cons, List.mem_cons, not_or] at h
    rw [List.cons_append, dictGet_cons, if_neg, ih (by simpa [keysOf] using h.2)]
    simp only [beq_iff_eq]
    exact fun he => h.1 he.symm

theorem dictGet_map_updA_ne {d : Dict} {k1 k : String} (h : k1 ≠ k) (v : Val) :
    dictGet (d.map (updA k v)) k1 = dictGet d k1 := by
  induction d with
  | nil => rfl
  | cons p rest ih =>
    rw [List.map_cons, dictGet_cons, dictGet_cons, updA_fst]
    by_cases hk : (p.1 == k1) = true
    · rw [if_pos hk, if_pos hk]
      have hne : ¬(p.1 == k) = true := by
        simp only [beq_iff_eq] at hk ⊢
        rw [hk]; exact fun he => h he
      unfold updA
      rw [if_neg hne]
    · rw [if_neg hk, if_neg hk]; exact ih

theorem map_updA_self {d : Dict} {k : String} {v : Val}
    (hnd : (keysOf d).Nodup) (hv : dictGet d k = some v) :
    d.map (updA k v) = d := by
  induction d with
  | nil => simp [dictGet] at hv
  | cons p rest ih =>
    obtain ⟨a, b⟩ := p
    simp only [keysOf, List.map_cons, List.nodup_cons] at hnd
    rw [dictGet_cons] at hv
    rw [List.map_cons]
    by_cases hk : ((a, b).1 == k) = true
    · simp only [beq_iff_eq] at hk
      have hk2 : a = k := hk
      subst hk2
      rw [if_pos (by simp)] at hv
      injection hv with hv2
      have hv3 : b = v := hv2
      subst hv3
      have hrest : rest.map (updA a b) = rest := by
        apply map_updA_id_of_not_mem
        simpa [keysOf] using hnd.1
      have hp : updA a b (a, b) = (a, b) := by unfold updA; simp
      rw [hp, hrest]
    · rw [if_neg hk] at hv
      have hp : updA k v (a, b) = (a, b) := by unfold updA; rw [if_neg hk]
      rw [hp, ih hnd.2 hv]

theorem filter_key_map {d : Dict} {k : String} {v : Val} {p : String × Val → Bool}
    (hp : ∀ q, p (updA k v q) = p q) :
    (d.map (updA k v)).filter p = (d.filter p).map (updA k v) := by
  induction d with
  | nil => rfl
  | cons q rest ih =>
    rw [List.map_cons, List.filter_cons, List.filter_cons, hp q]
    split
    · rw [List.map_cons, ih]
    · exact ih

theorem notHashKey_updA (k : String) (v : Val) (q : String × Val) :
    notHashKey (updA k v q) = notHashKey q := by
  unfold notHashKey
  rw [show (updA k v q).1 = q.1 from updA_fst k v q]

/-! Auxiliary lemmas: key-sorting commutes with key-preserving value maps,
and is a permutation. -/

theorem insertByKey_map {α : Type} (f : String × α → String × α)
    (hf : ∀ p, (f p).1 = p.1) (p : String × α) :
    ∀ l : List (String × α), insertByKey (f p) (l.map f) = (insertByKey p l).map f := by
  intro l
  induction l with
  | nil => rfl
  | cons q rest ih =>
    simp only [List.map_cons, insertByKey, hf]
    split
    · rfl
    · rw [List.map_cons, ih]

theorem sortByKey_map {α : Type} (f : String × α → String × α)
    (hf : ∀ p, (f p).1 = p.1) :
    ∀ l : List (String × α), sortByKey (l.map f) = (sortByKey l).map f := by
  intro l
  induction l with
  | nil => rfl
  | cons p rest ih =>
    simp only [List.map_cons, sortByKey]
    rw [ih, insertByKey_map f hf]

theorem insertByKey_perm {α : Type} (p : String × α) :
    ∀ l : List (String × α), (insertByKey p l).Perm (p :: l) := by
  intro l
  induction l with
  | nil => exact List.Perm.refl _
  | cons q rest ih =>
    simp only [insertByKey]
    split
    · exact List.Perm.refl _
    · exact (ih.cons q).trans (List.Perm.swap p q rest)

theorem sortByKey_perm {α : Type} :
    ∀ l : List (String × α), (sortByKey l).Perm l := by
  intro l
  induction l with
  | nil => exact List.Perm.refl _
  | cons p rest ih =>
    exact (insertByKey_perm p (sortByKey rest)).trans (ih.cons p)

theorem keysOf_perm_of_perm {α : Type} {l m : List (String × α)}
    (h : l.Perm m) : (keysOf l).Perm (keysOf m) := h.map Prod.fst

/-! Auxiliary lemmas: splitting a uniquely-keyed list at a key. -/

theorem exists_split_of_mem_keys {α : Type} :
    ∀ {m : List (String × α)} {k : String}, (keysOf m).Nodup → k ∈ keysOf m →
    ∃ A e B, m = A ++ (k, e) :: B ∧ k ∉ keysOf A ∧ k ∉ keysOf B := by
  intro m
  induction m with
  | nil => intro k _ hk; simp [keysOf] at hk
  | cons p rest ih =>
    intro k hnd hk
    obtain ⟨a, b⟩ := p
    simp only [keysOf, List.map_cons, List.nodup_cons] at hnd
    simp only [keysOf, List.map_cons, List.mem_cons] at hk
    rcases hk with hk | hk
    · subst hk
      exact ⟨[], b, rest, rfl, by simp [keysOf], by simpa [keysOf] using hnd.1⟩
    · obtain ⟨A, e, B, hm, hA, hB⟩ := ih hnd.2 (by simpa [keysOf] using hk)
      refine ⟨(a, b) :: A, e, B, by rw [hm, List.cons_append], ?_, hB⟩
      simp only [keysOf, List.map_cons, List.mem_cons, not_or]
      constructor
      · intro he
        apply hnd.1
        rw [← he]
        exact hk
      · simpa [keysOf] using hA

theorem map_updA_split {α : Type} {A B : List (String × α)} {k : String} {e : α}
    (hA : k ∉ keysOf A) (hB : k ∉ keysOf B) (s : α) :
    (A ++ (k, e) :: B).map (updA k s) = A ++ (k, s) :: B := by
  rw [List.map_append, List.map_cons, map_updA_id_of_not_mem hA,
    map_updA_id_of_not_mem hB]
  have : updA k s (k, e) = (k, s) := by unfold updA; simp
  rw [this]

/-! Auxiliary lemmas: factoring a comma join around one item. -/

theorem joinComma_cons_ne (x : String) {l : List String} (h : l ≠ []) :
    joinComma (x :: l) = x ++ ", " ++ joinComma l := by
  cases l with
  | nil => exact absurd rfl h
  | cons y ys => rfl

theorem joinComma_factor (s : String) :
    ∀ (X : List String) (Y : List String),
    joinComma (X ++ s :: Y) = joinLead X ++ (s ++ joinTail Y) := by
  intro X
  induction X with
  | nil =>
    intro Y
    cases Y with
    | nil =>
      simp only [List.nil_append, joinComma, joinLead, joinTail]
      rw [str_append_empty, str_empty_append]
    | cons y ys =>
      simp only [List.nil_append, joinLead, joinTail]
      rw [joinComma_cons_ne s (by simp), str_empty_append, str_append_assoc]
  | cons x xs ih =>
    intro Y
    have hne : xs ++ s :: Y ≠ [] := by simp
    rw [List.cons_append, joinComma_cons_ne x hne, ih Y]
    simp only [joinLead]
    simp only [str_append_assoc]

/-! Auxiliary lemmas: the rendered-entry view of serialization. -/

theorem serEntries_cons (k : String) (v : Val) (rest : List (String × Val)) :
    serEntries ((k, v) :: rest) = (k, serEntry k v) :: serEntries rest := rfl

theorem keysOf_serEntries : ∀ d : Dict, keysOf (serEntries d) = keysOf d := by
  intro d
  induction d with
  | nil => rfl
  | cons p rest ih =>
    obtain ⟨k, v⟩ := p
    rw [serEntries_cons]
    simp only [keysOf, List.map_cons] at ih ⊢
    rw [ih]

theorem serEntries_map_updA (k : String) (v : Val) :
    ∀ d : Dict, serEntries (d.map (updA k v)) =
      (serEntries d).map (updA k (serEntry k v)) := by
  intro d
  induction d with
  | nil => rfl
  | cons p rest ih =>
    obtain ⟨a, b⟩ := p
    by_cases h : (a == k) = true
    · have ha : a = k := by simpa [beq_iff_eq] using h
      subst ha
      have h1 : updA a v (a, b) = (a, v) := by unfold updA; simp
      have h2 : updA a (serEntry a v) (a, serEntry a b) = (a, serEntry a v) := by
        unfold updA; simp
      rw [List.map_cons, h1, serEntries_cons, serEntries_cons, List.map_cons, h2, ih]
    · have h1 : updA k v (a, b) = (a, b) := by unfold updA; rw [if_neg (by simpa using h)]
      have h2 : updA k (serEntry k v) (a, serEntry a b) = (a, serEntry a b) := by
        unfold updA; rw [if_neg (by simpa using h)]
      rw [List.map_cons, h1, serEntries_cons, serEntries_cons, List.map_cons, h2, ih]

/-- Factoring of the canonical serialization around one updated key: for a
uniquely-keyed dict containing `k`, the canonical bytes split as a fixed
head, the serialized value at `k`, and a fixed tail. -/
theorem jsonDumps_factor {d : Dict} {k : String}
    (hnd : (keysOf d).Nodup) (hk : k ∈ keysOf d) :
    ∃ P S, ∀ v, jsonDumps (d.map (updA k v)) = P ++ (serVal v ++ S) := by
  have hperm : (keysOf (sortByKey (serEntries d))).Perm (keysOf (serEntries d)) :=
    keysOf_perm_of_perm (sortByKey_perm _)
  have hnd2 : (keysOf (sortByKey (serEntries d))).Nodup :=
    (hperm.nodup_iff).2 (by rw [keysOf_serEntries]; exact hnd)
  have hk2 : k ∈ keysOf (sortByKey (serEntries d)) := by
    apply hperm.mem_iff.2
    rw [keysOf_serEntries]; exact hk
  obtain ⟨A, e, B, hsplit, hA, hB⟩ := exists_split_of_mem_keys hnd2 hk2
  refine ⟨"\x7b" ++ joinLead (A.map Prod.snd) ++ ("\"" ++ escape k ++ "\": "),
    joinTail (B.map Prod.snd) ++ "\x7d", ?_⟩
  intro v
  show serVal (.obj (d.map (updA k v))) = _
  rw [serVal]
  rw [serEntries_map_updA, sortByKey_map _ (updA_fst _ _), hsplit,
    map_updA_split hA hB]
  rw [List.map_append, List.map_cons]
  rw [joinComma_factor]
  show "\x7b" ++ (joinLead (A.map Prod.snd) ++ (serEntry k v ++ joinTail (B.map Prod.snd))) ++ "\x7d" = _
  unfold serEntry
  simp only [str_append_assoc]

/-- Distinct serialized values at one key give distinct canonical bytes. -/
theorem jsonDumps_updA_ne {d : Dict} {k : String}
    (hnd : (keysOf d).Nodup) (hk : k ∈ keysOf d) {v1 v2 : Val}
    (h : serVal v1 ≠ serVal v2) :
    jsonDumps (d.map (updA k v1)) ≠ jsonDumps (d.map (updA k v2)) := by
  obtain ⟨P, S, hPS⟩ := jsonDumps_factor hnd hk
  rw [hPS, hPS]
  intro he
  exact h (str_append_cancel he)

/-! Auxiliary lemmas: JSON string escaping is injective. -/

theorem escChar_cases (c : Char) :
    (c = '\\' ∧ escChar c = ['\\', '\\']) ∨ (c = '"' ∧ escChar c = ['\\', '"']) ∨
    (c ≠ '\\' ∧ c ≠ '"' ∧ escChar c = [c]) := by
  unfold escChar
  by_cases h1 : c = '\\'
  · left; exact ⟨h1, by rw [if_pos h1]⟩
  · by_cases h2 : c = '"'
    · right; left; exact ⟨h2, by rw [if_neg h1, if_pos h2]⟩
    · right; right; exact ⟨h1, h2, by rw [if_neg h1, if_neg h2]⟩

theorem escChars_inj : ∀ (l1 l2 : List Char), escChars l1 = escChars l2 → l1 = l2 := by
  intro l1
  induction l1 with
  | nil =>
    intro l2 h
    cases l2 with
    | nil => rfl
    | cons b bs =>
      exfalso
      simp only [escChars] at h
      have h3 : escChar b = [] := (List.append_eq_nil.mp h.symm).1
      rcases escChar_cases b with ⟨_, hb⟩ | ⟨_, hb⟩ | ⟨_, _, hb⟩ <;>
        rw [hb] at h3 <;> simp at h3
  | cons a as ih =>
    intro l2 h
    cases l2 with
    | nil =>
      exfalso
      simp only [escChars] at h
      have h3 : escChar a = [] := (List.append_eq_nil.mp h).1
      rcases escChar_cases a with ⟨_, hA⟩ | ⟨_, hA⟩ | ⟨_, _, hA⟩ <;>
        rw [hA] at h3 <;> simp at h3
    | cons b bs =>
      simp only [escChars] at h
      rcases escChar_cases a with ⟨ha, hA⟩ | ⟨ha, hA⟩ | ⟨ha1, ha2, hA⟩ <;>
        rcases escChar_cases b with ⟨hb, hB⟩ | ⟨hb, hB⟩ | ⟨hb1, hb2, hB⟩ <;>
        rw [hA, hB] at h <;>
        simp only [List.cons_append, List.nil_append, List.cons.injEq] at h
      · rw [ha, hb, ih bs h.2.2]
      · exact absurd h.2.1 (by decide)
      · exact absurd h.1.symm hb1
      · exact absurd h.2.1 (by decide)
      · rw [ha, hb, ih bs h.2.2]
      · exact absurd h.1.symm hb1
      · exact absurd h.1 ha1
      · exact absurd h.1 ha1
      · rw [h.1, ih bs h.2]

theorem serVal_str_inj {a b : String} (h : serVal (.str a) = serVal (.str b)) :
    a = b := by
  have h2 := congrArg String.data h
  simp only [serVal, escape, String.data_append] at h2
  have h3 : escChars a.data = escChars b.data :=
    List.append_cancel_left (List.append_cancel_right h2)
  exact str_data_inj (escChars_inj _ _ h3)

/-! Auxiliary lemmas: keys of dict updates. -/

theorem keysOf_append {α : Type} (d l : List (String × α)) :
    keysOf (d ++ l) = keysOf d ++ keysOf l := by
  simp [keysOf]

theorem keysOf_dictSet_mem {d : Dict} {k k2 : String} {v : Val}
    (h : k ∈ keysOf (dictSet d k2 v)) : k ∈ keysOf d ∨ k = k2 := by
  by_cases hm : k2 ∈ keysOf d
  · rw [dictSet_of_mem hm, keysOf_map_updA] at h; exact Or.inl h
  · rw [dictSet_of_not_mem hm, keysOf_append] at h
    rcases List.mem_append.1 h with h | h
    · exact Or.inl h
    · simp [keysOf] at h; exact Or.inr h

theorem mem_keysOf_dictSet_of_mem {d : Dict} {k : String} (h : k ∈ keysOf d)
    (k2 : String) (v : Val) : k ∈ keysOf (dictSet d k2 v) := by
  by_cases hm : k2 ∈ keysOf d
  · rw [dictSet_of_mem hm, keysOf_map_updA]; exact h
  · rw [dictSet_of_not_mem hm, keysOf_append]; exact List.mem_append.2 (Or.inl h)

theorem nodup_keysOf_dictSet {d : Dict} (hnd : (keysOf d).Nodup) (k : String)
    (v : Val) : (keysOf (dictSet d k v)).Nodup := by
  by_cases hm : k ∈ keysOf d
  · rw [dictSet_of_mem hm, keysOf_map_updA]; exact hnd
  · rw [dictSet_of_not_mem hm, keysOf_append]
    simp only [keysOf, List.map_cons, List.map_nil]
    rw [List.nodup_append]
    refine ⟨hnd, List.nodup_singleton k, ?_⟩
    intro a ha hb
    simp only [List.mem_singleton] at hb
    subst hb
    exact hm ha

theorem keysOf_dictUpdate_mem :
    ∀ (u : Dict) (d : Dict) {k : String}, k ∈ keysOf (dictUpdate d u) →
      k ∈ keysOf d ∨ k ∈ keysOf u := by
  intro u
  induction u with
  | nil => intro d k h; exact Or.inl h
  | cons p rest ih =>
    intro d k h
    have h2 := ih (dictSet d p.1 p.2) h
    rcases h2 with h2 | h2
    · rcases keysOf_dictSet_mem h2 with h3 | h3
      · exact Or.inl h3
      · right; simp [keysOf, h3]
    · right
      simp only [keysOf, List.map_cons, List.mem_cons]
      right
      simpa [keysOf] using h2

theorem mem_keysOf_dictUpdate_of_mem :
    ∀ (u : Dict) (d : Dict) {k : String}, k ∈ keysOf d →
      k ∈ keysOf (dictUpdate d u) := by
  intro u
  induction u with
  | nil => intro d k h; exact h
  | cons p rest ih =>
    intro d k h
    exact ih (dictSet d p.1 p.2) (mem_keysOf_dictSet_of_mem h p.1 p.2)

theorem nodup_keysOf_dictUpdate :
    ∀ (u : Dict) (d : Dict), (keysOf d).Nodup → (keysOf (dictUpdate d u)).Nodup := by
  intro u
  induction u with
  | nil => intro d h; exact h
  | cons p rest ih =>
    intro d h
    exact ih (dictSet d p.1 p.2) (nodup_keysOf_dictSet h p.1 p.2)

theorem dictGet_append_single_ne {d : Dict} {k k2 : String} (h : k ≠ k2) (v : Val) :
    dictGet (d ++ [(k2, v)]) k = dictGet d k := by
  induction d with
  | nil =>
    simp only [List.nil_append]
    rw [dictGet_cons, if_neg (by simpa [beq_iff_eq] using fun he => h he.symm)]
  | cons p rest ih =>
    rw [List.cons_append, dictGet_cons, dictGet_cons]
    split
    · rfl
    · exact ih

theorem dictGet_dictSet_ne {d : Dict} {k k2 : String} (h : k ≠ k2) (v : Val) :
    dictGet (dictSet d k2 v) k = dictGet d k := by
  by_cases hm : k2 ∈ keysOf d
  · rw [dictSet_of_mem hm]; exact dictGet_map_updA_ne h v
  · rw [dictSet_of_not_mem hm]; exact dictGet_append_single_ne h v

theorem dictGet_dictUpdate_not_mem :
    ∀ (u : Dict) (d : Dict) {k : String}, k ∉ keysOf u →
      dictGet (dictUpdate d u) k = dictGet d k := by
  intro u
  induction u with
  | nil => intro d k _; rfl
  | cons p rest ih =>
    intro d k h
    simp only [keysOf, List.map_cons, List.mem_cons, not_or] at h
    rw [show dictUpdate d (p :: rest) = dictUpdate (dictSet d p.1 p.2) rest from rfl,
      ih (dictSet d p.1 p.2) (by simpa [keysOf] using h.2),
      dictGet_dictSet_ne h.1 p.2]

/-! Auxiliary lemmas: structure of an emitted receipt. -/

theorem envOf_keys_mem {rt : String} {payload : Dict} {ts : String}
    {tid : Option String} {k : String} (h : k ∈ keysOf (envOf rt payload ts tid)) :
    k = "receipt_type" ∨ k = "ts" ∨ k = "tenant_id" ∨ k ∈ keysOf payload := by
  unfold envOf at h
  rcases keysOf_dictUpdate_mem _ _ h with h | h
  · simp only [keysOf, List.map_cons, List.map_nil, List.mem_cons,
      List.not_mem_nil, or_false] at h
    tauto
  · exact Or.inr (Or.inr (Or.inr h))

theorem envOf_nodup (rt : String) (payload : Dict) (ts : String)
    (tid : Option String) : (keysOf (envOf rt payload ts tid)).Nodup := by
  unfold envOf
  apply nodup_keysOf_dictUpdate
  show (["receipt_type", "ts", "tenant_id"] : List String).Nodup
  decide

theorem isTruthy_dual_hash (sha bl : Bytes → String) (s : String) :
    isTruthy (.str (dual_hash sha bl s)) = true := by
  simp only [isTruthy, Bool.not_eq_true', beq_eq_false_iff_ne, ne_eq]
  intro he
  have h2 := congrArg String.data he
  simp only [dual_hash, String.data_append,
    show "SHA256_".data = ['S', 'H', 'A', '2', '5', '6', '_'] from rfl,
    List.cons_append, List.append_assoc] at h2
  exact List.noConfusion h2

theorem mem_keysOf_of_mem {α : Type} {p : String × α} {d : List (String × α)}
    (h : p ∈ d) : p.1 ∈ keysOf d := List.mem_map.2 ⟨p, h, rfl⟩

/-- Unfolding of `verify_single_receipt` once the stored hash is located. -/
theorem verify_single_receipt_some (sha bl : Bytes → String) {r : Receipt}
    {stored : Val} (h : dictGet r "payload_hash" = some stored) :
    verify_single_receipt sha bl r =
      if !isTruthy stored then false
      else valEqB stored
        (.str (dual_hash sha bl (jsonDumps (r.filter notHashKey)))) := by
  unfold verify_single_receipt
  rw [h]

/-- Structure of the receipt built by `emit_receipt` when the payload does
not use the two reserved hash keys: the envelope with the two hash fields
appended at the end. -/
theorem emit_receipt_structure (sha bl : Bytes → String) (b3 : Bytes → Bytes)
    (rt : String) (payload : Dict) (ts : String) (tid : Option String) (L : Ledger)
    (hph : "payload_hash" ∉ keysOf payload) (hmr : "merkle_root" ∉ keysOf payload) :
    ∃ mv, (emit_receipt sha bl b3 rt payload ts tid L).1 =
      envOf rt payload ts tid ++
      [("payload_hash", .str (dual_hash sha bl (jsonDumps (envOf rt payload ts tid)))),
       ("merkle_root", mv)] := by
  have hph_env : "payload_hash" ∉ keysOf (envOf rt payload ts tid) := by
    intro h
    rcases envOf_keys_mem h with h | h | h | h
    · exact absurd h (by decide)
    · exact absurd h (by decide)
    · exact absurd h (by decide)
    · exact hph h
  have hmr_env : "merkle_root" ∉ keysOf (envOf rt payload ts tid) := by
    intro h
    rcases envOf_keys_mem h with h | h | h | h
    · exact absurd h (by decide)
    · exact absurd h (by decide)
    · exact absurd h (by decide)
    · exact hmr h
  have e1 : dictSet (envOf rt payload ts tid) "payload_hash"
      (.str (dual_hash sha bl (jsonDumps (envOf rt payload ts tid)))) =
      envOf rt payload ts tid ++
      [("payload_hash", .str (dual_hash sha bl (jsonDumps (envOf rt payload ts tid))))] :=
    dictSet_of_not_mem hph_env _
  have hmr1 : "merkle_root" ∉ keysOf (envOf rt payload ts tid ++
      [("payload_hash", .str (dual_hash sha bl (jsonDumps (envOf rt payload ts tid))))]) := by
    rw [keysOf_append]
    intro h
    rcases List.mem_append.1 h with h | h
    · exact hmr_env h
    · simp only [keysOf, List.map_cons, List.map_nil, List.mem_cons,
        List.not_mem_nil, or_false] at h
      exact absurd h (by decide)
  refine ⟨Val.str (merkle_root b3 ((envOf rt payload ts tid ++
      [("payload_hash", Val.str (dual_hash sha bl (jsonDumps (envOf rt payload ts tid))))]).map
      (fun p : String × Val => pyStr p.2))), ?_⟩
  show dictSet (dictSet (envOf rt payload ts tid) "payload_hash"
      (Val.str (dual_hash sha bl (jsonDumps (envOf rt payload ts tid))))) "merkle_root"
      (Val.str (merkle_root b3 ((dictSet (envOf rt payload ts tid) "payload_hash"
        (Val.str (dual_hash sha bl (jsonDumps (envOf rt payload ts tid))))).map
        (fun p : String × Val => pyStr p.2)))) = _
  rw [e1, dictSet_of_not_mem hmr1, List.append_assoc]
  rfl

/-! C9 and C8: Merkle accumulator and yield validation. -/

/-- Claim C9: `merkle_root` of the empty list is the fixed sentinel
`blake3(b"empty")` in hex — a deterministic value, not an error — and on a
3-element list the first two leaves are paired while the trailing third
leaf is combined with a duplicate of itself. -/
theorem c9_merkle_root_sentinel_and_odd_duplicate :
    (∀ b3f : Bytes → Bytes, merkle_root b3f [] = bytesHex (b3f (strBytes "empty"))) ∧
    (∀ (b3f : Bytes → Bytes) (a b c : String),
      merkle_root b3f [a, b, c] =
        bytesHex (b3f (b3f (b3f (strBytes a) ++ b3f (strBytes b)) ++
          b3f (b3f (strBytes c) ++ b3f (strBytes c))))) := by
  constructor
  · intro b3f; rfl
  · intro b3f a b c; rfl

/-- Claim C8: `validate_yield` stops exactly when input or output is not
strictly positive; otherwise it returns the exact ratio `output/input`
classified LOW below 0.12, NORMAL in [0.12, 0.18], HIGH_DILUTION_FLAG
above 0.18. -/
theorem c8_validate_yield_correct (input_kg output_kg : ℚ) :
    ((∃ e, validate_yield input_kg output_kg = .error e) ↔
      input_kg ≤ 0 ∨ output_kg ≤ 0) ∧
    (0 < input_kg → 0 < output_kg →
      (output_kg / input_kg < 12/100 →
        validate_yield input_kg output_kg = .ok (output_kg / input_kg, "LOW")) ∧
      (12/100 ≤ output_kg / input_kg → output_kg / input_kg ≤ 18/100 →
        validate_yield input_kg output_kg = .ok (output_kg / input_kg, "NORMAL")) ∧
      (18/100 < output_kg / input_kg →
        validate_yield input_kg output_kg =
          .ok (output_kg / input_kg, "HIGH_DILUTION_FLAG"))) := by
  have hmin : YIELD_MIN = 12/100 := rfl
  have hmax : YIELD_MAX = 18/100 := rfl
  constructor
  · constructor
    · rintro ⟨e, he⟩
      by_contra hc
      unfold validate_yield at he
      rw [if_neg hc] at he
      revert he
      show (if output_kg / input_kg < YIELD_MIN then _ else _) = _ → _
      split
      · intro he; exact Except.noConfusion he
      · split
        · intro he; exact Except.noConfusion he
        · intro he; exact Except.noConfusion he
    · intro h
      unfold validate_yield
      rw [if_pos h]
      exact ⟨_, rfl⟩
  · intro hi ho
    have hcond : ¬(input_kg ≤ 0 ∨ output_kg ≤ 0) := by push_neg; exact ⟨hi, ho⟩
    refine ⟨?_, ?_, ?_⟩
    · intro hlow
      unfold validate_yield
      rw [if_neg hcond]
      show (if output_kg / input_kg < YIELD_MIN then _ else _) = _
      rw [if_pos (by rw [hmin]; exact hlow)]
    · intro h1 h2
      unfold validate_yield
      rw [if_neg hcond]
      show (if output_kg / input_kg < YIELD_MIN then _ else _) = _
      rw [if_neg (by rw [hmin]; exact not_lt.2 h1),
        if_neg (by rw [gt_iff_lt, hmax]; exact not_lt.2 h2)]
    · intro hhigh
      unfold validate_yield
      rw [if_neg hcond]
      show (if output_kg / input_kg < YIELD_MIN then _ else _) = _
      rw [if_neg (by rw [hmin]; exact not_lt.2 (le_of_lt (lt_trans (by norm_num) hhigh))),
        if_pos (by rw [gt_iff_lt, hmax]; exact hhigh)]

/-- Witness for C8 at the spec's example: 1000 kg in, 220 kg out, ratio
0.22, classified HIGH_DILUTION_FLAG. -/
theorem c8_validate_yield_correct_witness :
    validate_yield 1000 220 = .ok (220/1000, "HIGH_DILUTION_FLAG") := by
  have h1 : (0:ℚ) < 1000 := of_decide_eq_true (by with_unfolding_all rfl)
  have h2 : (0:ℚ) < 220 := of_decide_eq_true (by with_unfolding_all rfl)
  have h3 : (18/100 : ℚ) < 220/1000 := of_decide_eq_true (by with_unfolding_all rfl)
  exact ((c8_validate_yield_correct 1000 220).2 h1 h2).2.2 h3

/-! C1: hash recomputation on untampered emitted receipts. -/

set_option maxRecDepth 100000 in
/-- Counterexample to C1 as stated for arbitrary payloads: a payload that
itself carries a `payload_hash` field is overwritten by the envelope
builder, and the emitted receipt then fails `verify_single_receipt`
(the hashed view and the stored view disagree on the field set). -/
theorem c1_counterexample_reserved_key :
    verify_single_receipt sha0 bl0
      (emit_receipt sha0 bl0 b30 "testing" [("payload_hash", .str "x")]
        "T1" none []).1 = false := by
  with_unfolding_all rfl

/-- Claim C1 (amended): for every payload that does not use the reserved
`payload_hash` / `merkle_root` field names — as no stage payload does —
recomputing the dual hash over the canonical serialization of the stored
fields excluding the two hash fields equals the stored `payload_hash`:
`verify_single_receipt` accepts every untampered emitted receipt. -/
theorem c1_emit_verify_roundtrip (sha bl : Bytes → String) (b3 : Bytes → Bytes)
    (rt : String) (payload : Dict) (ts : String) (tid : Option String) (L : Ledger)
    (hph : "payload_hash" ∉ keysOf payload) (hmr : "merkle_root" ∉ keysOf payload) :
    verify_single_receipt sha bl (emit_receipt sha bl b3 rt payload ts tid L).1 = true := by
  obtain ⟨mv, hstruct⟩ := emit_receipt_structure sha bl b3 rt payload ts tid L hph hmr
  rw [hstruct]
  have hph_env : "payload_hash" ∉ keysOf (envOf rt payload ts tid) := by
    intro h
    rcases envOf_keys_mem h with h | h | h | h
    · exact absurd h (by decide)
    · exact absurd h (by decide)
    · exact absurd h (by decide)
    · exact hph h
  have hmr_env : "merkle_root" ∉ keysOf (envOf rt payload ts tid) := by
    intro h
    rcases envOf_keys_mem h with h | h | h | h
    · exact absurd h (by decide)
    · exact absurd h (by decide)
    · exact absurd h (by decide)
    · exact hmr h
  have hget : dictGet (envOf rt payload ts tid ++
      [("payload_hash", .str (dual_hash sha bl (jsonDumps (envOf rt payload ts tid)))),
       ("merkle_root", mv)]) "payload_hash" =
      some (.str (dual_hash sha bl (jsonDumps (envOf rt payload ts tid)))) := by
    rw [dictGet_append_of_not_mem hph_env]
    rfl
  have hfilter : (envOf rt payload ts tid ++
      [("payload_hash", .str (dual_hash sha bl (jsonDumps (envOf rt payload ts tid)))),
       ("merkle_root", mv)]).filter notHashKey = envOf rt payload ts tid := by
    rw [List.filter_append]
    have h2 : List.filter notHashKey
        [("payload_hash", Val.str (dual_hash sha bl (jsonDumps (envOf rt payload ts tid)))),
         ("merkle_root", mv)] = [] := by
      simp [notHashKey]
    rw [h2, List.append_nil]
    apply List.filter_eq_self.2
    intro p hp
    have hk := mem_keysOf_of_mem hp
    simp only [notHashKey, Bool.and_eq_true, Bool.not_eq_true', beq_eq_false_iff_ne, ne_eq]
    constructor
    · intro he; exact hph_env (he ▸ hk)
    · intro he; exact hmr_env (he ▸ hk)
  rw [verify_single_receipt_some sha bl hget]
  rw [if_neg (by rw [isTruthy_dual_hash]; simp)]
  rw [hfilter]
  simp [valEqB]

/-- Witness for the amended C1 on a concrete stage-style payload. -/
theorem c1_emit_verify_roundtrip_witness :
    verify_single_receipt sha0 bl0
      (emit_receipt sha0 bl0 b30 "catch"
        [("species", .str "Salmo salar"), ("batch_id", .str "B-1")]
        "T1" none []).1 = true :=
  c1_emit_verify_roundtrip sha0 bl0 b30 "catch"
    [("species", .str "Salmo salar"), ("batch_id", .str "B-1")] "T1" none []
    (by decide) (by decide)

/-! C3: single-field tampering is detected. -/

theorem verify_single_receipt_none (sha bl : Bytes → String) {r : Receipt}
    (h : dictGet r "payload_hash" = none) :
    verify_single_receipt sha bl r = false := by
  unfold verify_single_receipt
  rw [h]

/-- What a successful hash re-verification tells us about the receipt. -/
theorem verify_true_elim {sha bl : Bytes → String} {r : Receipt}
    (hv : verify_single_receipt sha bl r = true) :
    ∃ s, dictGet r "payload_hash" = some (.str s) ∧ isTruthy (.str s) = true ∧
      s = dual_hash sha bl (jsonDumps (r.filter notHashKey)) := by
  cases hget : dictGet r "payload_hash" with
  | none => rw [verify_single_receipt_none sha bl hget] at hv; exact absurd hv (by simp)
  | some stored =>
    rw [verify_single_receipt_some sha bl hget] at hv
    by_cases ht : isTruthy stored = true
    · rw [ht] at hv
      simp only [Bool.not_true, Bool.false_eq_true, if_false] at hv
      cases stored with
      | str a =>
        simp only [valEqB, beq_iff_eq] at hv
        exact ⟨a, rfl, ht, hv⟩
      | int n => simp [valEqB] at hv
      | rat q => simp [valEqB] at hv
      | bool b => simp [valEqB] at hv
      | null => simp [valEqB] at hv
      | obj l => simp [valEqB] at hv
    · rw [Bool.not_eq_true] at ht
      rw [ht] at hv
      simp at hv

theorem mem_keys_dictGet_isSome {d : Dict} {k : String} (h : k ∈ keysOf d) :
    ∃ v, dictGet d k = some v := by
  induction d with
  | nil => simp [keysOf] at h
  | cons p rest ih =>
    rw [dictGet_cons]
    by_cases hp : (p.1 == k) = true
    · rw [if_pos hp]; exact ⟨p.2, rfl⟩
    · rw [if_neg hp]
      apply ih
      simp only [keysOf, List.map_cons, List.mem_cons] at h
      rcases h with h | h
      · exact absurd (by simpa [beq_iff_eq] using h.symm) hp
      · exact h

theorem dictGet_filter_notHashKey {r : Receipt} {k : String}
    (h1 : k ≠ "payload_hash") (h2 : k ≠ "merkle_root") :
    dictGet (r.filter notHashKey) k = dictGet r k := by
  induction r with
  | nil => rfl
  | cons p rest ih =>
    rw [List.filter_cons]
    by_cases hp : (p.1 == k) = true
    · have hkeep : notHashKey p = true := by
        have : p.1 = k := by simpa [beq_iff_eq] using hp
        simp only [notHashKey, this, Bool.and_eq_true, Bool.not_eq_true',
          beq_eq_false_iff_ne, ne_eq]
        exact ⟨h1, h2⟩
      rw [hkeep]
      simp only [if_true]
      rw [dictGet_cons, dictGet_cons, if_pos hp, if_pos hp]
    · by_cases hkeep : notHashKey p = true
      · rw [hkeep]
        simp only [if_true]
        rw [dictGet_cons, dictGet_cons, if_neg hp, if_neg hp]
        exact ih
      · rw [Bool.not_eq_true] at hkeep
        rw [hkeep]
        simp only [Bool.false_eq_true, if_false]
        rw [dictGet_cons, if_neg hp]
        exact ih

theorem keysOf_filter_sublist (p : String × Val → Bool) (r : Receipt) :
    (keysOf (r.filter p)).Sublist (keysOf r) :=
  (List.filter_sublist r).map Prod.fst

theorem mem_keys_of_dictGet_some {d : Dict} {k : String} {v : Val}
    (h : dictGet d k = some v) : k ∈ keysOf d := by
  induction d with
  | nil => simp [dictGet] at h
  | cons p rest ih =>
    rw [dictGet_cons] at h
    simp only [keysOf, List.map_cons, List.mem_cons]
    by_cases hp : (p.1 == k) = true
    · have hpe : p.1 = k := by simpa [beq_iff_eq] using hp
      exact Or.inl hpe.symm
    · rw [if_neg hp] at h
      exact Or.inr (ih h)

set_option maxRecDepth 400000 in
/-- Claim C3, first half (amended only by making the two modelling
hypotheses explicit): mutating a single stored field of a receipt that
verifies — to a value with a different canonical serialization, assuming the
dual hash does not collide on the two resulting byte strings — makes
`verify_single_receipt` fail. Second half: rewriting `yield_output_kg` on
the processing line of the otherwise valid demo ledger makes `verify_chain`
report an invalid chain with exactly the hash-mismatch error, while the
walk still resolves all five receipts (the links are structurally intact). -/
theorem c3_single_field_tamper_detected :
    (∀ (sha bl : Bytes → String) (r : Receipt) (k : String) (v2 : Val),
      (keysOf r).Nodup → k ∈ keysOf r →
      k ≠ "payload_hash" → k ≠ "merkle_root" →
      verify_single_receipt sha bl r = true →
      serVal v2 ≠ serVal (valGet r k) →
      (dual_hash sha bl (jsonDumps ((dictSet r k v2).filter notHashKey)) =
        dual_hash sha bl (jsonDumps (r.filter notHashKey)) →
        jsonDumps ((dictSet r k v2).filter notHashKey) =
        jsonDumps (r.filter notHashKey)) →
      verify_single_receipt sha bl (dictSet r k v2) = false) ∧
    ((verify_chain sha0 bl0 "LOT-1" mutatedLedger "T6").chain_valid = false ∧
     (verify_chain sha0 bl0 "LOT-1" mutatedLedger "T6").errors =
       ["Hash verification failed for processing receipt"] ∧
     (verify_chain sha0 bl0 "LOT-1" mutatedLedger "T6").chain_length = 5) := by
  constructor
  · intro sha bl r k v2 hnd hk hk1 hk2 hv hser hcoll
    obtain ⟨s, hget, ht, hs⟩ := verify_true_elim hv
    have hmap : dictSet r k v2 = r.map (updA k v2) := dictSet_of_mem hk v2
    have hget2 : dictGet (dictSet r k v2) "payload_hash" = some (.str s) := by
      rw [hmap, dictGet_map_updA_ne (fun he => hk1 he.symm) v2]
      exact hget
    rw [verify_single_receipt_some sha bl hget2, if_neg (by rw [ht]; simp)]
    have hfilter : (dictSet r k v2).filter notHashKey =
        (r.filter notHashKey).map (updA k v2) := by
      rw [hmap]
      exact filter_key_map (notHashKey_updA k v2)
    have hnd0 : (keysOf (r.filter notHashKey)).Nodup :=
      List.Nodup.sublist (keysOf_filter_sublist notHashKey r) hnd
    have hget0 : dictGet (r.filter notHashKey) k = dictGet r k :=
      dictGet_filter_notHashKey hk1 hk2
    obtain ⟨w, hw⟩ := mem_keys_dictGet_isSome hk
    have hw0 : dictGet (r.filter notHashKey) k = some w := by rw [hget0]; exact hw
    have hk0 : k ∈ keysOf (r.filter notHashKey) := mem_keys_of_dictGet_some hw0
    have hval : valGet r k = w := by unfold valGet; rw [hw]; rfl
    have hself : (r.filter notHashKey).map (updA k w) = r.filter notHashKey :=
      map_updA_self hnd0 hw0
    have hbytes : jsonDumps ((r.filter notHashKey).map (updA k v2)) ≠
        jsonDumps (r.filter notHashKey) := by
      conv_rhs => rw [← hself]
      exact jsonDumps_updA_ne hnd0 hk0 (by rw [hval] at hser; exact hser)
    have hne : dual_hash sha bl
        (jsonDumps ((dictSet r k v2).filter notHashKey)) ≠ s := by
      rw [hs]
      intro he
      apply hbytes
      rw [← hfilter]
      exact hcoll he
    simp only [valEqB]
    rw [beq_eq_false_iff_ne]
    exact fun he => hne he.symm
  · exact ⟨by with_unfolding_all rfl, by with_unfolding_all rfl,
      by with_unfolding_all rfl⟩

/-! C7: re-emitting at a different timestamp. -/

theorem notTsHashKey_updA (k : String) (v : Val) (q : String × Val) :
    notTsHashKey (updA k v q) = notTsHashKey q := by
  unfold notTsHashKey
  rw [show (updA k v q).1 = q.1 from updA_fst k v q]

theorem dictSet_map_comm {t k : String} (hne : k ≠ t) (w v : Val) (d : Dict) :
    dictSet (d.map (updA t w)) k v = (dictSet d k v).map (updA t w) := by
  have htk : ((t : String) == k) = false := by
    simp only [beq_eq_false_iff_ne, ne_eq]
    exact fun he => hne he.symm
  have hkt : ((k : String) == t) = false := by
    simpa [beq_eq_false_iff_ne] using hne
  by_cases hm : k ∈ keysOf d
  · rw [dictSet_of_mem hm, dictSet_of_mem (by rw [keysOf_map_updA]; exact hm)]
    rw [List.map_map, List.map_map]
    apply List.map_congr_left
    intro p _
    show updA k v (updA t w p) = updA t w (updA k v p)
    by_cases h1 : (p.1 == t) = true <;> by_cases h2 : (p.1 == k) = true
    · exfalso
      apply hne
      have e1 : p.1 = t := by simpa [beq_iff_eq] using h1
      have e2 : p.1 = k := by simpa [beq_iff_eq] using h2
      rw [← e1, ← e2]
    · simp [updA, h1, h2, htk]
    · simp [updA, h1, h2, hkt]
    · simp [updA, h1, h2]
  · rw [dictSet_of_not_mem hm, dictSet_of_not_mem (by rw [keysOf_map_updA]; exact hm)]
    rw [List.map_append]
    have hkv : updA t w (k, v) = (k, v) := by
      unfold updA
      rw [if_neg (by simp [hkt])]
    rw [List.map_cons, hkv, List.map_nil]

theorem dictUpdate_map_comm {t : String} (w : Val) :
    ∀ (u : Dict) (d : Dict), t ∉ keysOf u →
      dictUpdate (d.map (updA t w)) u = (dictUpdate d u).map (updA t w) := by
  intro u
  induction u with
  | nil => intro d _; rfl
  | cons p rest ih =>
    intro d h
    simp only [keysOf, List.map_cons, List.mem_cons, not_or] at h
    show dictUpdate (dictSet (d.map (updA t w)) p.1 p.2) rest = _
    rw [dictSet_map_comm (fun he => h.1 he.symm) w p.2]
    exact ih (dictSet d p.1 p.2) (by simpa [keysOf] using h.2)

/-- Counterexample to C7 as stated: re-emitting the same payload at a
different wall-clock time changes more than `payload_hash` — the stored
`ts` field itself differs between the two receipts. -/
theorem c7_counterexample_ts_field_changes :
    pyStr (valGet (emit_receipt sha0 bl0 b30 "catch"
        [("species", .str "Salmo salar")] "T1" none []).1 "ts") ≠
      pyStr (valGet (emit_receipt sha0 bl0 b30 "catch"
        [("species", .str "Salmo salar")] "T2" none []).1 "ts") ∧
    ("ts" : String) ≠ "payload_hash" :=
  ⟨of_decide_eq_true (by with_unfolding_all rfl), of_decide_eq_true rfl⟩

/-- Claim C7 (amended): for a payload that does not use the reserved
`ts` / `payload_hash` / `merkle_root` field names, emitting it at two
different timestamps yields different `payload_hash` values — the timestamp
is part of the canonical hashed bytes, and the dual hash is assumed
collision-free on the two byte strings — while every stored field other
than `ts`, `payload_hash` and `merkle_root` is unchanged. -/
theorem c7_ts_changes_payload_hash (sha bl : Bytes → String) (b3 : Bytes → Bytes)
    (rt : String) (payload : Dict) (ts1 ts2 : String) (tid : Option String)
    (L1 L2 : Ledger)
    (hts : ts1 ≠ ts2)
    (h1 : "ts" ∉ keysOf payload)
    (h2 : "payload_hash" ∉ keysOf payload)
    (h3 : "merkle_root" ∉ keysOf payload)
    (hcoll : dual_hash sha bl (jsonDumps (envOf rt payload ts2 tid)) =
      dual_hash sha bl (jsonDumps (envOf rt payload ts1 tid)) →
      jsonDumps (envOf rt payload ts2 tid) = jsonDumps (envOf rt payload ts1 tid)) :
    valGet (emit_receipt sha bl b3 rt payload ts2 tid L2).1 "payload_hash" ≠
      valGet (emit_receipt sha bl b3 rt payload ts1 tid L1).1 "payload_hash" ∧
    (emit_receipt sha bl b3 rt payload ts2 tid L2).1.filter notTsHashKey =
      (emit_receipt sha bl b3 rt payload ts1 tid L1).1.filter notTsHashKey := by
  obtain ⟨mv1, hs1⟩ := emit_receipt_structure sha bl b3 rt payload ts1 tid L1 h2 h3
  obtain ⟨mv2, hs2⟩ := emit_receipt_structure sha bl b3 rt payload ts2 tid L2 h2 h3
  -- the two envelopes differ exactly in the value at key "ts"
  have henv : envOf rt payload ts2 tid = (envOf rt payload ts1 tid).map
      (updA "ts" (.str ts2)) := by
    unfold envOf
    have hbase : ([("receipt_type", Val.str rt), ("ts", Val.str ts2),
        ("tenant_id", Val.str (tenantDefault tid))] : Dict) =
        ([("receipt_type", Val.str rt), ("ts", Val.str ts1),
          ("tenant_id", Val.str (tenantDefault tid))] : Dict).map
          (updA "ts" (.str ts2)) := rfl
    rw [hbase, dictUpdate_map_comm (.str ts2) payload _ h1]
  have hnd1 : (keysOf (envOf rt payload ts1 tid)).Nodup := envOf_nodup rt payload ts1 tid
  have hts_mem : "ts" ∈ keysOf (envOf rt payload ts1 tid) := by
    apply mem_keysOf_dictUpdate_of_mem
    show "ts" ∈ (["receipt_type", "ts", "tenant_id"] : List String)
    decide
  have hget_ts : dictGet (envOf rt payload ts1 tid) "ts" = some (.str ts1) := by
    unfold envOf
    rw [dictGet_dictUpdate_not_mem payload _ h1]
    rfl
  have hself : (envOf rt payload ts1 tid).map (updA "ts" (.str ts1)) =
      envOf rt payload ts1 tid := map_updA_self hnd1 hget_ts
  have hbytes : jsonDumps (envOf rt payload ts2 tid) ≠
      jsonDumps (envOf rt payload ts1 tid) := by
    rw [henv]
    conv_rhs => rw [← hself]
    apply jsonDumps_updA_ne hnd1 hts_mem
    intro he
    exact hts (serVal_str_inj he).symm
  have hhash : dual_hash sha bl (jsonDumps (envOf rt payload ts2 tid)) ≠
      dual_hash sha bl (jsonDumps (envOf rt payload ts1 tid)) :=
    fun he => hbytes (hcoll he)
  have hph_env1 : "payload_hash" ∉ keysOf (envOf rt payload ts1 tid) := by
    intro h
    rcases envOf_keys_mem h with h | h | h | h
    · exact absurd h (by decide)
    · exact absurd h (by decide)
    · exact absurd h (by decide)
    · exact h2 h
  have hph_env2 : "payload_hash" ∉ keysOf (envOf rt payload ts2 tid) := by
    intro h
    rcases envOf_keys_mem h with h | h | h | h
    · exact absurd h (by decide)
    · exact absurd h (by decide)
    · exact absurd h (by decide)
    · exact h2 h
  constructor
  · rw [hs1, hs2]
    unfold valGet
    rw [dictGet_append_of_not_mem hph_env1, dictGet_append_of_not_mem hph_env2]
    show Val.str (dual_hash sha bl (jsonDumps (envOf rt payload ts2 tid))) ≠
      Val.str (dual_hash sha bl (jsonDumps (envOf rt payload ts1 tid)))
    simp only [ne_eq, Val.str.injEq]
    exact hhash
  · rw [hs1, hs2, List.filter_append, List.filter_append]
    have hf1 : List.filter notTsHashKey
        [("payload_hash", Val.str (dual_hash sha bl (jsonDumps (envOf rt payload ts1 tid)))),
         ("merkle_root", mv1)] = [] := by simp [notTsHashKey]
    have hf2 : List.filter notTsHashKey
        [("payload_hash", Val.str (dual_hash sha bl (jsonDumps (envOf rt payload ts2 tid)))),
         ("merkle_root", mv2)] = [] := by simp [notTsHashKey]
    rw [hf1, hf2, List.append_nil, List.append_nil]
    rw [henv, filter_key_map (notTsHashKey_updA "ts" (.str ts2))]
    apply map_updA_id_of_not_mem
    intro hmem
    unfold keysOf at hmem
    obtain ⟨p, hp, hpe⟩ := List.mem_map.1 hmem
    have hkeep := (List.mem_filter.1 hp).2
    simp only [notTsHashKey, Bool.and_eq_true, Bool.not_eq_true',
      beq_eq_false_iff_ne, ne_eq] at hkeep
    exact hkeep.1.1 hpe

set_option maxRecDepth 400000 in
/-- Witness for the amended C7 at a concrete payload and two timestamps. -/
theorem c7_ts_changes_payload_hash_witness :
    valGet (emit_receipt sha0 bl0 b30 "catch"
        [("species", .str "Salmo salar")] "T2" none []).1 "payload_hash" ≠
      valGet (emit_receipt sha0 bl0 b30 "catch"
        [("species", .str "Salmo salar")] "T1" none []).1 "payload_hash" ∧
    (emit_receipt sha0 bl0 b30 "catch"
        [("species", .str "Salmo salar")] "T2" none []).1.filter notTsHashKey =
      (emit_receipt sha0 bl0 b30 "catch"
        [("species", .str "Salmo salar")] "T1" none []).1.filter notTsHashKey :=
  c7_ts_changes_payload_hash sha0 bl0 b30 "catch"
    [("species", .str "Salmo salar")] "T1" "T2" none [] []
    (of_decide_eq_true rfl) (by decide) (by decide) (by decide)
    (fun h => absurd h (of_decide_eq_true (by with_unfolding_all rfl)))

/-! C4 and C10: testing-stage regulatory gating. -/

theorem roundHalfEven_le {q : ℚ} {m : ℤ} (h : q ≤ (m : ℚ)) :
    roundHalfEven q ≤ m := by
  have hf : ⌊q⌋ ≤ m := by
    have := Int.floor_le_floor h
    rwa [Int.floor_intCast] at this
  have hfl : (⌊q⌋ : ℚ) ≤ q := Int.floor_le q
  unfold roundHalfEven
  show (if q - ((⌊q⌋ : ℤ) : ℚ) < 1/2 then ⌊q⌋
    else if q - ((⌊q⌋ : ℤ) : ℚ) > 1/2 then ⌊q⌋ + 1
    else if ⌊q⌋ % 2 = 0 then ⌊q⌋ else ⌊q⌋ + 1) ≤ m
  split_ifs with hlt hgt heven
  · exact hf
  · rcases lt_or_eq_of_le hf with hlt2 | heq
    · omega
    · exfalso
      have : q ≤ (⌊q⌋ : ℚ) := by rw [heq]; exact h
      push_neg at hlt
      linarith
  · exact hf
  · push_neg at hlt hgt
    have hhalf : q - (⌊q⌋ : ℚ) = 1/2 := le_antisymm hgt hlt
    rcases lt_or_eq_of_le hf with hlt2 | heq
    · omega
    · exfalso
      have : q ≤ (⌊q⌋ : ℚ) := by rw [heq]; exact h
      linarith

theorem roundTo_le_totox {x : ℚ} (h : x ≤ 26) : roundTo x 2 ≤ 26 := by
  unfold roundTo
  have h100 : x * 10 ^ 2 ≤ ((2600 : ℤ) : ℚ) := by push_cast; linarith
  have hre : ((roundHalfEven (x * 10 ^ 2) : ℤ) : ℚ) ≤ 2600 := by
    exact_mod_cast roundHalfEven_le h100
  have h102 : ((10 : ℚ) ^ 2) = 100 := by norm_num
  rw [h102] at hre ⊢
  linarith

theorem emit_receipt_snd (sha bl : Bytes → String) (b3 : Bytes → Bytes)
    (rt : String) (payload : Dict) (ts : String) (tid : Option String)
    (L : Ledger) :
    (emit_receipt sha bl b3 rt payload ts tid L).2 =
    L ++ [(emit_receipt sha bl b3 rt payload ts tid L).1] := rfl

theorem emit_testing_snd (sha bl : Bytes → String) (b3 : Bytes → Bytes)
    (lab_name lab_cert_type lab_cert_id lab_cert_hash batch_id : String)
    (contaminants potency oxidation : Dict) (overall_pass : Bool)
    (previous_hash : String) (tenant_id : Option String) (ts : String)
    (L : Ledger) :
    (emit_testing sha bl b3 lab_name lab_cert_type lab_cert_id lab_cert_hash
      batch_id contaminants potency oxidation overall_pass previous_hash
      tenant_id ts L).2 =
    L ++ [(emit_testing sha bl b3 lab_name lab_cert_type lab_cert_id
      lab_cert_hash batch_id contaminants potency oxidation overall_pass
      previous_hash tenant_id ts L).1] :=
  emit_receipt_snd sha bl b3 "testing"
    [("lab_name", .str lab_name),
     ("lab_cert_type", .str lab_cert_type),
     ("lab_cert_id", .str lab_cert_id),
     ("lab_cert_hash", .str lab_cert_hash),
     ("batch_id", .str batch_id),
     ("contaminants", .obj contaminants),
     ("potency", .obj potency),
     ("oxidation", .obj oxidation),
     ("overall_pass", .bool overall_pass),
     ("previous_hash", .str previous_hash)] ts tenant_id L

set_option maxHeartbeats 1000000 in
/-- Claim C4: when `create_testing_receipt` hits a regulatory-ceiling breach
— a contaminant over its ceiling, or (stored, rounded) TOTOX over 26.0 — the
testing receipt is appended to the ledger and the returned failure message
contains that persisted receipt payload_hash; the failure is raised, not
absorbed. -/
theorem c4_breach_persists_receipt_then_fails (sha bl : Bytes → String)
    (b3 : Bytes → Bytes) (lab_name lab_cert_type lab_cert_id lab_cert_hash
    batch_id : String) (mercury_ppm pcbs_ppm dioxins_pg_per_g epa_mg dha_mg
    label_claim_mg peroxide_meq_per_kg anisidine : ℚ) (previous_hash : String)
    (tenant_id : Option String) (ts : String) (ledger : Ledger)
    (hc1 : LAB_CERT_TYPES.contains lab_cert_type = true)
    (hc2 : lab_cert_hash.data.contains ':' = true)
    (hbreach : ¬(mercury_ppm ≤ MERCURY_LIMIT ∧ pcbs_ppm ≤ PCBS_LIMIT ∧
        dioxins_pg_per_g ≤ DIOXINS_LIMIT) ∨
      roundTo (2 * peroxide_meq_per_kg + anisidine) 2 > TOTOX_LIMIT) :
    ∃ r e, create_testing_receipt sha bl b3 lab_name lab_cert_type lab_cert_id
        lab_cert_hash batch_id mercury_ppm pcbs_ppm dioxins_pg_per_g epa_mg
        dha_mg label_claim_mg peroxide_meq_per_kg anisidine previous_hash
        tenant_id ts ledger = (ledger ++ [r], .error e) ∧
      containsStr e (hashOf r) := by
  simp only [create_testing_receipt, hc1, hc2, Bool.not_true, Bool.false_eq_true,
    if_false]
  by_cases hcont : mercury_ppm ≤ MERCURY_LIMIT ∧ pcbs_ppm ≤ PCBS_LIMIT ∧
      dioxins_pg_per_g ≤ DIOXINS_LIMIT
  · rcases hbreach with hb | hb
    · exact absurd hcont hb
    · have hall : (!isTruthy (valGet (validate_contaminants mercury_ppm pcbs_ppm
          dioxins_pg_per_g) "all_pass")) = false := by
        show (!(decide (mercury_ppm ≤ MERCURY_LIMIT) &&
          decide (pcbs_ppm ≤ PCBS_LIMIT) &&
          decide (dioxins_pg_per_g ≤ DIOXINS_LIMIT))) = false
        simp [hcont.1, hcont.2.1, hcont.2.2]
      rw [hall]
      simp only [Bool.false_eq_true, if_false]
      have htot : numOf (valGet (validate_oxidation peroxide_meq_per_kg anisidine)
          "totox") > TOTOX_LIMIT := by
        show roundTo (2 * peroxide_meq_per_kg + anisidine) 2 > TOTOX_LIMIT
        exact hb
      rw [if_pos htot, emit_testing_snd]
      refine ⟨_, _, rfl, ?_⟩
      exact ⟨"TOTOX_EXCEED: " ++
        pyStr (valGet (validate_oxidation peroxide_meq_per_kg anisidine) "totox") ++
        " > " ++ ratRepr TOTOX_LIMIT ++ ". Receipt emitted: ", "",
        by rw [str_append_empty]; rfl⟩
  · have hall : (!isTruthy (valGet (validate_contaminants mercury_ppm pcbs_ppm
        dioxins_pg_per_g) "all_pass")) = true := by
      show (!(decide (mercury_ppm ≤ MERCURY_LIMIT) &&
        decide (pcbs_ppm ≤ PCBS_LIMIT) &&
        decide (dioxins_pg_per_g ≤ DIOXINS_LIMIT))) = true
      rw [Bool.not_eq_true', Bool.eq_false_iff]
      intro hcj
      apply hcont
      simp only [Bool.and_eq_true, decide_eq_true_eq] at hcj
      exact ⟨hcj.1.1, hcj.1.2, hcj.2⟩
    rw [hall, if_pos rfl, emit_testing_snd]
    refine ⟨_, _, rfl, ?_⟩
    exact ⟨"CONTAMINANT_EXCEED: " ++ joinComma _ ++ ". Receipt emitted: ", "",
      by rw [str_append_empty]; rfl⟩

set_option maxRecDepth 100000 in
/-- Witness for C4: a mercury reading of 0.15 ppm (ceiling 0.1) on otherwise
valid inputs makes `create_testing_receipt` append the testing receipt to the
(empty) ledger and return an error whose message contains that receipt
payload_hash. -/
theorem c4_breach_persists_receipt_then_fails_witness :
    ∃ r e, create_testing_receipt sha0 bl0 b30 "Lab" "ISO17025" "LC-1" "x:y"
        "BATCH-1" (mkRat 15 100) (mkRat 5 100) 2 500 500 1000 3 10 "prev"
        none "T" [] = ([] ++ [r], .error e) ∧
      containsStr e (hashOf r) :=
  c4_breach_persists_receipt_then_fails sha0 bl0 b30 "Lab" "ISO17025" "LC-1"
    "x:y" "BATCH-1" (mkRat 15 100) (mkRat 5 100) 2 500 500 1000 3 10 "prev"
    none "T" []
    (of_decide_eq_true (by with_unfolding_all rfl))
    (of_decide_eq_true (by with_unfolding_all rfl))
    (Or.inl (fun h => absurd h.1 (of_decide_eq_true (by with_unfolding_all rfl))))

theorem dictUpdate_eq_append : ∀ (u d : Dict),
    (∀ k ∈ keysOf u, k ∉ keysOf d) → (keysOf u).Nodup →
    dictUpdate d u = d ++ u := by
  intro u
  induction u with
  | nil => intro d _ _; simp [dictUpdate]
  | cons p rest ih =>
    intro d hdisj hnd
    simp only [keysOf, List.map_cons, List.nodup_cons] at hnd
    have hk : p.1 ∉ keysOf d := hdisj p.1 (by simp [keysOf])
    have hstep : dictUpdate d (p :: rest) = dictUpdate (dictSet d p.1 p.2) rest := rfl
    rw [hstep, dictSet_of_not_mem hk]
    have hdisj2 : ∀ k ∈ keysOf rest, k ∉ keysOf (d ++ [(p.1, p.2)]) := by
      intro k hkr
      rw [keysOf_append]
      simp only [List.mem_append, not_or]
      refine ⟨hdisj k (by simp only [keysOf, List.map_cons]; exact List.mem_cons_of_mem _ hkr), ?_⟩
      simp only [keysOf, List.map_cons, List.map_nil, List.mem_cons,
        List.not_mem_nil, or_false]
      intro he
      exact hnd.1 (he ▸ hkr)
    rw [ih (d ++ [(p.1, p.2)]) hdisj2 hnd.2, List.append_assoc]
    rfl

theorem dictGet_append_left {d : Dict} {k : String} {v : Val}
    (h : dictGet d k = some v) (l : Dict) : dictGet (d ++ l) k = some v := by
  induction d with
  | nil => simp [dictGet] at h
  | cons p rest ih =>
    rw [List.cons_append, dictGet_cons]
    rw [dictGet_cons] at h
    by_cases hp : (p.1 == k) = true
    · rw [if_pos hp] at h ⊢; exact h
    · rw [if_neg hp] at h ⊢; exact ih h

theorem oxPassOf_eq (r : Receipt) :
    oxPassOf r = valGet (objOf (valGet r "oxidation")) "oxidation_pass" := rfl

theorem valGet_emit_receipt_payload (sha bl : Bytes → String) (b3 : Bytes → Bytes)
    (rt : String) (payload : Dict) (ts : String) (tid : Option String)
    (L : Ledger) (k : String) (v : Val)
    (hph : "payload_hash" ∉ keysOf payload) (hmr : "merkle_root" ∉ keysOf payload)
    (hnd : (keysOf payload).Nodup)
    (hdisj : ∀ k2 ∈ keysOf payload, k2 ≠ "receipt_type" ∧ k2 ≠ "ts" ∧
      k2 ≠ "tenant_id")
    (hk : k ≠ "receipt_type" ∧ k ≠ "ts" ∧ k ≠ "tenant_id")
    (hget : dictGet payload k = some v) :
    valGet (emit_receipt sha bl b3 rt payload ts tid L).1 k = v := by
  obtain ⟨mv, hr⟩ := emit_receipt_structure sha bl b3 rt payload ts tid L hph hmr
  unfold valGet
  rw [hr]
  have hbase : ∀ k2 ∈ keysOf payload, k2 ∉ keysOf
      [("receipt_type", Val.str rt), ("ts", Val.str ts),
       ("tenant_id", Val.str (tenantDefault tid))] := by
    intro k2 hk2
    have hd := hdisj k2 hk2
    simp [keysOf, hd.1, hd.2.1, hd.2.2]
  have henv : envOf rt payload ts tid =
      [("receipt_type", Val.str rt), ("ts", Val.str ts),
       ("tenant_id", Val.str (tenantDefault tid))] ++ payload := by
    unfold envOf
    exact dictUpdate_eq_append payload _ hbase hnd
  rw [henv]
  have h1 : dictGet ([("receipt_type", Val.str rt), ("ts", Val.str ts),
      ("tenant_id", Val.str (tenantDefault tid))] ++ payload) k = some v := by
    rw [dictGet_append_of_not_mem (by simp [keysOf, hk.1, hk.2.1, hk.2.2])]
    exact hget
  rw [dictGet_append_left h1]
  rfl

set_option maxHeartbeats 1000000 in
/-- Claim C10: when contaminants pass and raw TOTOX is at or under 26 but
peroxide exceeds 5.0 or anisidine exceeds 20.0, `create_testing_receipt`
raises no error: it persists and returns a receipt whose
oxidation.oxidation_pass and overall_pass fields are both false. -/
theorem c10_oxidation_failure_recorded_not_signaled (sha bl : Bytes → String)
    (b3 : Bytes → Bytes) (lab_name lab_cert_type lab_cert_id lab_cert_hash
    batch_id : String) (mercury_ppm pcbs_ppm dioxins_pg_per_g epa_mg dha_mg
    label_claim_mg peroxide_meq_per_kg anisidine : ℚ) (previous_hash : String)
    (tenant_id : Option String) (ts : String) (ledger : Ledger)
    (hc1 : LAB_CERT_TYPES.contains lab_cert_type = true)
    (hc2 : lab_cert_hash.data.contains ':' = true)
    (hcont : mercury_ppm ≤ MERCURY_LIMIT ∧ pcbs_ppm ≤ PCBS_LIMIT ∧
      dioxins_pg_per_g ≤ DIOXINS_LIMIT)
    (htot : 2 * peroxide_meq_per_kg + anisidine ≤ TOTOX_LIMIT)
    (hox : PEROXIDE_LIMIT < peroxide_meq_per_kg ∨ ANISIDINE_LIMIT < anisidine) :
    ∃ r, create_testing_receipt sha bl b3 lab_name lab_cert_type lab_cert_id
        lab_cert_hash batch_id mercury_ppm pcbs_ppm dioxins_pg_per_g epa_mg
        dha_mg label_claim_mg peroxide_meq_per_kg anisidine previous_hash
        tenant_id ts ledger = (ledger ++ [r], .ok r) ∧
      oxPassOf r = .bool false ∧
      valGet r "overall_pass" = .bool false := by
  have hoxf : (decide (peroxide_meq_per_kg ≤ PEROXIDE_LIMIT) &&
      decide (anisidine ≤ ANISIDINE_LIMIT) &&
      decide (2 * peroxide_meq_per_kg + anisidine ≤ TOTOX_LIMIT)) = false := by
    rcases hox with h | h
    · have hd : decide (peroxide_meq_per_kg ≤ PEROXIDE_LIMIT) = false :=
        decide_eq_false (not_le.2 h)
      simp [hd]
    · have hd : decide (anisidine ≤ ANISIDINE_LIMIT) = false :=
        decide_eq_false (not_le.2 h)
      simp [hd]
  simp only [create_testing_receipt, hc1, hc2, Bool.not_true, Bool.false_eq_true,
    if_false]
  have hall : (!isTruthy (valGet (validate_contaminants mercury_ppm pcbs_ppm
      dioxins_pg_per_g) "all_pass")) = false := by
    show (!(decide (mercury_ppm ≤ MERCURY_LIMIT) &&
      decide (pcbs_ppm ≤ PCBS_LIMIT) &&
      decide (dioxins_pg_per_g ≤ DIOXINS_LIMIT))) = false
    simp [hcont.1, hcont.2.1, hcont.2.2]
  rw [hall]
  simp only [Bool.false_eq_true, if_false]
  have htot2 : ¬(numOf (valGet (validate_oxidation peroxide_meq_per_kg anisidine)
      "totox") > TOTOX_LIMIT) := by
    show ¬(roundTo (2 * peroxide_meq_per_kg + anisidine) 2 > TOTOX_LIMIT)
    exact not_lt.2 (roundTo_le_totox htot)
  rw [if_neg htot2, emit_testing_snd]
  have hov : valGet (emit_testing sha bl b3 lab_name lab_cert_type lab_cert_id lab_cert_hash
       batch_id (validate_contaminants mercury_ppm pcbs_ppm dioxins_pg_per_g)
       (validate_potency epa_mg dha_mg label_claim_mg)
       (validate_oxidation peroxide_meq_per_kg anisidine)
       (isTruthy (valGet (validate_contaminants mercury_ppm pcbs_ppm dioxins_pg_per_g) "all_pass") &&
       isTruthy (valGet (validate_potency epa_mg dha_mg label_claim_mg) "potency_pass") &&
       isTruthy (valGet (validate_oxidation peroxide_meq_per_kg anisidine) "oxidation_pass"))
       previous_hash tenant_id ts ledger).1 "overall_pass" = Val.bool (isTruthy (valGet (validate_contaminants mercury_ppm pcbs_ppm dioxins_pg_per_g) "all_pass") &&
       isTruthy (valGet (validate_potency epa_mg dha_mg label_claim_mg) "potency_pass") &&
       isTruthy (valGet (validate_oxidation peroxide_meq_per_kg anisidine) "oxidation_pass")) :=
    valGet_emit_receipt_payload sha bl b3 "testing"
      [("lab_name", Val.str lab_name),
     ("lab_cert_type", Val.str lab_cert_type),
     ("lab_cert_id", Val.str lab_cert_id),
     ("lab_cert_hash", Val.str lab_cert_hash),
     ("batch_id", Val.str batch_id),
     ("contaminants", Val.obj (validate_contaminants mercury_ppm pcbs_ppm dioxins_pg_per_g)),
     ("potency", Val.obj (validate_potency epa_mg dha_mg label_claim_mg)),
     ("oxidation", Val.obj (validate_oxidation peroxide_meq_per_kg anisidine)),
     ("overall_pass", Val.bool (isTruthy (valGet (validate_contaminants mercury_ppm pcbs_ppm dioxins_pg_per_g) "all_pass") &&
       isTruthy (valGet (validate_potency epa_mg dha_mg label_claim_mg) "potency_pass") &&
       isTruthy (valGet (validate_oxidation peroxide_meq_per_kg anisidine) "oxidation_pass"))),
     ("previous_hash", Val.str previous_hash)]
      ts tenant_id ledger "overall_pass" (Val.bool (isTruthy (valGet (validate_contaminants mercury_ppm pcbs_ppm dioxins_pg_per_g) "all_pass") &&
       isTruthy (valGet (validate_potency epa_mg dha_mg label_claim_mg) "potency_pass") &&
       isTruthy (valGet (validate_oxidation peroxide_meq_per_kg anisidine) "oxidation_pass")))
      (by simp [keysOf]) (by simp [keysOf]) (by simp [keysOf])
      (by simp [keysOf]) (by simp) (by with_unfolding_all rfl)
  have hoxv : valGet (emit_testing sha bl b3 lab_name lab_cert_type lab_cert_id lab_cert_hash
       batch_id (validate_contaminants mercury_ppm pcbs_ppm dioxins_pg_per_g)
       (validate_potency epa_mg dha_mg label_claim_mg)
       (validate_oxidation peroxide_meq_per_kg anisidine)
       (isTruthy (valGet (validate_contaminants mercury_ppm pcbs_ppm dioxins_pg_per_g) "all_pass") &&
       isTruthy (valGet (validate_potency epa_mg dha_mg label_claim_mg) "potency_pass") &&
       isTruthy (valGet (validate_oxidation peroxide_meq_per_kg anisidine) "oxidation_pass"))
       previous_hash tenant_id ts ledger).1 "oxidation" =
      Val.obj (validate_oxidation peroxide_meq_per_kg anisidine) :=
    valGet_emit_receipt_payload sha bl b3 "testing"
      [("lab_name", Val.str lab_name),
     ("lab_cert_type", Val.str lab_cert_type),
     ("lab_cert_id", Val.str lab_cert_id),
     ("lab_cert_hash", Val.str lab_cert_hash),
     ("batch_id", Val.str batch_id),
     ("contaminants", Val.obj (validate_contaminants mercury_ppm pcbs_ppm dioxins_pg_per_g)),
     ("potency", Val.obj (validate_potency epa_mg dha_mg label_claim_mg)),
     ("oxidation", Val.obj (validate_oxidation peroxide_meq_per_kg anisidine)),
     ("overall_pass", Val.bool (isTruthy (valGet (validate_contaminants mercury_ppm pcbs_ppm dioxins_pg_per_g) "all_pass") &&
       isTruthy (valGet (validate_potency epa_mg dha_mg label_claim_mg) "potency_pass") &&
       isTruthy (valGet (validate_oxidation peroxide_meq_per_kg anisidine) "oxidation_pass"))),
     ("previous_hash", Val.str previous_hash)]
      ts tenant_id ledger "oxidation"
      (Val.obj (validate_oxidation peroxide_meq_per_kg anisidine))
      (by simp [keysOf]) (by simp [keysOf]) (by simp [keysOf])
      (by simp [keysOf]) (by simp) (by with_unfolding_all rfl)
  refine ⟨_, rfl, ?_, ?_⟩
  · rw [oxPassOf_eq, hoxv]
    show Val.bool (decide (peroxide_meq_per_kg ≤ PEROXIDE_LIMIT) &&
      decide (anisidine ≤ ANISIDINE_LIMIT) &&
      decide (2 * peroxide_meq_per_kg + anisidine ≤ TOTOX_LIMIT)) = Val.bool false
    rw [hoxf]
  · rw [hov]
    have hz : isTruthy (valGet (validate_oxidation peroxide_meq_per_kg anisidine)
        "oxidation_pass") = false := by
      show (decide (peroxide_meq_per_kg ≤ PEROXIDE_LIMIT) &&
        decide (anisidine ≤ ANISIDINE_LIMIT) &&
        decide (2 * peroxide_meq_per_kg + anisidine ≤ TOTOX_LIMIT)) = false
      exact hoxf
    rw [hz, Bool.and_false]


set_option maxRecDepth 100000 in
/-- Witness for C10: peroxide 6 meq/kg (ceiling 5) with anisidine 10 keeps
TOTOX at 22 (under 26): the receipt is persisted and returned with
oxidation_pass false and overall_pass false, with no error raised. -/
theorem c10_oxidation_failure_recorded_not_signaled_witness :
    ∃ r, create_testing_receipt sha0 bl0 b30 "Lab" "ISO17025" "LC-1" "x:y"
        "BATCH-1" (mkRat 5 100) (mkRat 5 100) 2 500 500 1000 6 10 "prev"
        none "T" [] = ([] ++ [r], .ok r) ∧
      oxPassOf r = .bool false ∧
      valGet r "overall_pass" = .bool false :=
  c10_oxidation_failure_recorded_not_signaled sha0 bl0 b30 "Lab" "ISO17025"
    "LC-1" "x:y" "BATCH-1" (mkRat 5 100) (mkRat 5 100) 2 500 500 1000 6 10
    "prev" none "T" []
    (of_decide_eq_true (by with_unfolding_all rfl))
    (of_decide_eq_true (by with_unfolding_all rfl))
    ⟨of_decide_eq_true (by with_unfolding_all rfl),
     of_decide_eq_true (by with_unfolding_all rfl),
     of_decide_eq_true (by with_unfolding_all rfl)⟩
    (of_decide_eq_true (by with_unfolding_all rfl))
    (Or.inl (of_decide_eq_true (by with_unfolding_all rfl)))

theorem encapLots_append_not_encap {r : Receipt} (h : isEncapsulation r = false)
    (L : Ledger) : encapLots (L ++ [r]) = encapLots L := by
  simp [encapLots, List.filter_append, List.filter_cons, h]

theorem encapLots_append_encap {r : Receipt} (h : isEncapsulation r = true)
    (L : Ledger) :
    encapLots (L ++ [r]) = encapLots L ++ [valGet r "lot_number"] := by
  simp [encapLots, List.filter_append, List.filter_cons, h]

theorem nodupValB_append_single (xs : List Val) (v : Val) :
    nodupValB (xs ++ [v]) =
    (nodupValB xs && !(xs.any (fun w => valEqB w v))) := by
  induction xs with
  | nil => rfl
  | cons x xs ih =>
    simp only [List.cons_append, nodupValB, List.append_eq, List.any_append,
      List.any_cons, List.any_nil, Bool.or_false, ih, Bool.not_or]
    cases xs.any (fun w => valEqB x w) <;> cases valEqB x v <;>
      cases nodupValB xs <;> cases xs.any (fun w => valEqB w v) <;> rfl

theorem encapLots_any (L : Ledger) (lot : String) :
    (encapLots L).any (fun w => valEqB w (.str lot)) =
    L.any (fun r => valEqB (valGet r "receipt_type") (.str "encapsulation") &&
      valEqB (valGet r "lot_number") (.str lot)) := by
  induction L with
  | nil => rfl
  | cons r L ih =>
    rw [List.any_cons]
    by_cases h : isEncapsulation r = true
    · have he : encapLots (r :: L) = valGet r "lot_number" :: encapLots L := by
        simp [encapLots, List.filter_cons, h]
      have hh : valEqB (valGet r "receipt_type") (.str "encapsulation") = true := h
      rw [he, List.any_cons, ih, hh, Bool.true_and]
    · rw [Bool.not_eq_true] at h
      have he : encapLots (r :: L) = encapLots L := by
        simp [encapLots, List.filter_cons, h]
      have hh : valEqB (valGet r "receipt_type") (.str "encapsulation") = false := h
      rw [he, ih, hh, Bool.false_and, Bool.false_or]

theorem valGet_emit_receipt_rt (sha bl : Bytes → String) (b3 : Bytes → Bytes)
    (rt : String) (payload : Dict) (ts : String) (tid : Option String)
    (L : Ledger)
    (hrt : "receipt_type" ∉ keysOf payload)
    (hph : "payload_hash" ∉ keysOf payload)
    (hmr : "merkle_root" ∉ keysOf payload) :
    valGet (emit_receipt sha bl b3 rt payload ts tid L).1 "receipt_type" =
    .str rt := by
  obtain ⟨mv, hr⟩ := emit_receipt_structure sha bl b3 rt payload ts tid L hph hmr
  unfold valGet
  rw [hr]
  have h0 : dictGet (envOf rt payload ts tid) "receipt_type" =
      some (.str rt) := by
    unfold envOf
    rw [dictGet_dictUpdate_not_mem payload _ hrt]
    rfl
  rw [dictGet_append_left h0]
  rfl

theorem uniqueEncapLots_emit_snd (sha bl : Bytes → String) (b3 : Bytes → Bytes)
    (rt : String) (payload : Dict) (ts : String) (tid : Option String)
    (L : Ledger)
    (hne : (rt == "encapsulation") = false)
    (hrt : "receipt_type" ∉ keysOf payload)
    (hph : "payload_hash" ∉ keysOf payload)
    (hmr : "merkle_root" ∉ keysOf payload)
    (hu : uniqueEncapLots L) :
    uniqueEncapLots (emit_receipt sha bl b3 rt payload ts tid L).2 := by
  unfold uniqueEncapLots at hu ⊢
  have hienc : isEncapsulation (emit_receipt sha bl b3 rt payload ts tid L).1 =
      false := by
    unfold isEncapsulation
    rw [valGet_emit_receipt_rt sha bl b3 rt payload ts tid L hrt hph hmr]
    show (rt == "encapsulation") = false
    exact hne
  rw [emit_receipt_snd, encapLots_append_not_encap hienc]
  exact hu

/-- Claim C5: `create_encapsulation_receipt` stops and appends nothing
whenever the ledger already holds an encapsulation receipt with the same lot
number, and every ledger reachable through the five stage validators keeps at
most one encapsulation receipt per lot number. -/
theorem c5_lot_number_uniqueness_invariant (sha bl : Bytes → String) (b3 : Bytes → Bytes)
    (isoOk : String → Bool) :
    (∀ (facility_id facility_name facility_cert_type facility_cert_id
        facility_cert_hash lot_number fill_date batch_id : String)
       (capsule_count : Int) (mg_per_capsule : ℚ) (previous_hash : String)
       (tenant_id : Option String) (ts : String) (ledger : Ledger),
       ledger.any (fun r =>
         valEqB (valGet r "receipt_type") (.str "encapsulation") &&
         valEqB (valGet r "lot_number") (.str lot_number)) = true →
       ∃ e, create_encapsulation_receipt sha bl b3 isoOk facility_id
         facility_name facility_cert_type facility_cert_id facility_cert_hash
         lot_number fill_date batch_id capsule_count mg_per_capsule
         previous_hash tenant_id ts ledger = (ledger, .error e)) ∧
    (∀ (op : StageOp) (L : Ledger), uniqueEncapLots L →
       uniqueEncapLots (runStage sha bl b3 isoOk op L).1) := by
  constructor
  · intro f1 f2 f3 f4 f5 lot fd bid cc mg ph tid ts L hdup
    unfold create_encapsulation_receipt
    by_cases h1 : (!(FACILITY_CERT_TYPES.contains f3)) = true
    · rw [if_pos h1]; exact ⟨_, rfl⟩
    · rw [if_neg h1]
      by_cases h2 : (!(f5.data.contains ':')) = true
      · rw [if_pos h2]; exact ⟨_, rfl⟩
      · rw [if_neg h2, if_pos hdup]; exact ⟨_, rfl⟩
  · intro op L hu
    cases op with
    | catchOp a1 a2 a3 a4 a5 a6 a7 a8 =>
      show uniqueEncapLots
        (create_catch_receipt sha bl b3 a1 a2 a3 a4 a5 a6 a7 a8 L).1
      unfold create_catch_receipt
      split_ifs with h1 h2 h3
      · exact hu
      · exact hu
      · exact hu
      · exact uniqueEncapLots_emit_snd sha bl b3 "catch" _ a8 a7 L
          (by decide) (by simp [keysOf]) (by simp [keysOf]) (by simp [keysOf]) hu
    | processingOp a1 a2 a3 a4 a5 a6 a7 a8 a9 a10 a11 a12 a13 =>
      show uniqueEncapLots (create_processing_receipt sha bl b3 a1 a2 a3 a4 a5
        a6 a7 a8 a9 a10 a11 a12 a13 L).1
      unfold create_processing_receipt
      split_ifs with h1 h2 h3
      · exact hu
      · exact hu
      · exact hu
      · cases hv : validate_yield a9 a10 with
        | error e => simp only [hv]; exact hu
        | ok yr =>
          simp only [hv]
          exact uniqueEncapLots_emit_snd sha bl b3 "processing" _ a13 a12 L
            (by decide) (by simp [keysOf]) (by simp [keysOf]) (by simp [keysOf]) hu
    | testingOp a1 a2 a3 a4 a5 a6 a7 a8 a9 a10 a11 a12 a13 a14 a15 a16 =>
      show uniqueEncapLots (create_testing_receipt sha bl b3 a1 a2 a3 a4 a5 a6
        a7 a8 a9 a10 a11 a12 a13 a14 a15 a16 L).1
      simp only [create_testing_receipt]
      by_cases h1 : (!(LAB_CERT_TYPES.contains a2)) = true
      · rw [if_pos h1]; exact hu
      · rw [if_neg h1]
        by_cases h2 : (!(a4.data.contains ':')) = true
        · rw [if_pos h2]; exact hu
        · rw [if_neg h2]
          by_cases h3 : (!isTruthy (valGet (validate_contaminants a6 a7 a8)
              "all_pass")) = true
          · rw [if_pos h3]
            exact uniqueEncapLots_emit_snd sha bl b3 "testing" _ a16 a15 L
              (by decide) (by simp [keysOf]) (by simp [keysOf])
              (by simp [keysOf]) hu
          · rw [if_neg h3]
            by_cases h4 : numOf (valGet (validate_oxidation a12 a13) "totox") >
                TOTOX_LIMIT
            · rw [if_pos h4]
              exact uniqueEncapLots_emit_snd sha bl b3 "testing" _ a16 a15 L
                (by decide) (by simp [keysOf]) (by simp [keysOf])
                (by simp [keysOf]) hu
            · rw [if_neg h4]
              exact uniqueEncapLots_emit_snd sha bl b3 "testing" _ a16 a15 L
                (by decide) (by simp [keysOf]) (by simp [keysOf])
                (by simp [keysOf]) hu
    | distributionOp a1 a2 a3 a4 a5 a6 a7 a8 a9 =>
      show uniqueEncapLots (create_distribution_receipt sha bl b3 a1 a2 a3 a4
        a5 a6 a7 a8 a9 L).1
      exact uniqueEncapLots_emit_snd sha bl b3 "distribution" _ a9 a8 L
        (by decide) (by simp [keysOf]) (by simp [keysOf]) (by simp [keysOf]) hu
    | encapsulationOp a1 a2 a3 a4 a5 a6 a7 a8 a9 a10 a11 a12 a13 =>
      show uniqueEncapLots (create_encapsulation_receipt sha bl b3 isoOk a1 a2
        a3 a4 a5 a6 a7 a8 a9 a10 a11 a12 a13 L).1
      unfold create_encapsulation_receipt
      split_ifs with h1 h2 h3 h4
      · exact hu
      · exact hu
      · exact hu
      · exact hu
      · have hdup : L.any (fun r =>
            valEqB (valGet r "receipt_type") (.str "encapsulation") &&
            valEqB (valGet r "lot_number") (.str a6)) = false := by
          rwa [Bool.not_eq_true] at h3
        have hienc : isEncapsulation (emit_receipt sha bl b3 "encapsulation"
            [("facility_id", Val.str a1),
       ("facility_name", Val.str a2),
       ("facility_cert_type", Val.str a3),
       ("facility_cert_id", Val.str a4),
       ("facility_cert_hash", Val.str a5),
       ("lot_number", Val.str a6),
       ("fill_date", Val.str a7),
       ("batch_id", Val.str a8),
       ("capsule_count", Val.int a9),
       ("mg_per_capsule", Val.rat a10),
       ("previous_hash", Val.str a11)] a13 a12 L).1 = true := by
          unfold isEncapsulation
          rw [valGet_emit_receipt_rt sha bl b3 "encapsulation" _ a13 a12 L
            (by simp [keysOf]) (by simp [keysOf]) (by simp [keysOf])]
          rfl
        have hlot : valGet (emit_receipt sha bl b3 "encapsulation"
            [("facility_id", Val.str a1),
       ("facility_name", Val.str a2),
       ("facility_cert_type", Val.str a3),
       ("facility_cert_id", Val.str a4),
       ("facility_cert_hash", Val.str a5),
       ("lot_number", Val.str a6),
       ("fill_date", Val.str a7),
       ("batch_id", Val.str a8),
       ("capsule_count", Val.int a9),
       ("mg_per_capsule", Val.rat a10),
       ("previous_hash", Val.str a11)] a13 a12 L).1 "lot_number" = .str a6 :=
          valGet_emit_receipt_payload sha bl b3 "encapsulation"
            [("facility_id", Val.str a1),
       ("facility_name", Val.str a2),
       ("facility_cert_type", Val.str a3),
       ("facility_cert_id", Val.str a4),
       ("facility_cert_hash", Val.str a5),
       ("lot_number", Val.str a6),
       ("fill_date", Val.str a7),
       ("batch_id", Val.str a8),
       ("capsule_count", Val.int a9),
       ("mg_per_capsule", Val.rat a10),
       ("previous_hash", Val.str a11)] a13 a12 L "lot_number" (.str a6)
            (by simp [keysOf]) (by simp [keysOf]) (by simp [keysOf])
            (by simp [keysOf]) (by simp) (by with_unfolding_all rfl)
        show uniqueEncapLots (emit_receipt sha bl b3 "encapsulation"
          [("facility_id", Val.str a1),
       ("facility_name", Val.str a2),
       ("facility_cert_type", Val.str a3),
       ("facility_cert_id", Val.str a4),
       ("facility_cert_hash", Val.str a5),
       ("lot_number", Val.str a6),
       ("fill_date", Val.str a7),
       ("batch_id", Val.str a8),
       ("capsule_count", Val.int a9),
       ("mg_per_capsule", Val.rat a10),
       ("previous_hash", Val.str a11)] a13 a12 L).2
        unfold uniqueEncapLots at hu ⊢
        rw [emit_receipt_snd, encapLots_append_encap hienc, hlot,
          nodupValB_append_single, encapLots_any, hu, hdup]
        rfl


set_option maxRecDepth 400000 in
/-- Witness for C5: on the demo ledger (which already holds encapsulation lot
LOT-1) a second encapsulation call for LOT-1 stops and appends nothing, and
one further stage call on that ledger preserves the uniqueness invariant. -/
theorem c5_lot_number_uniqueness_invariant_witness :
    (∃ e, create_encapsulation_receipt sha0 bl0 b30 (fun _ => true) "ENC-2"
      "Encap Two" "NSF" "FC-2" "x:y" "LOT-1" "2024-01-02" "BATCH-9" 10 100
      "ph" none "T9" demoLedger = (demoLedger, .error e)) ∧
    uniqueEncapLots (runStage sha0 bl0 b30 (fun _ => true)
      (.encapsulationOp "ENC-2" "Encap Two" "NSF" "FC-2" "x:y" "LOT-2"
        "2024-01-02" "BATCH-1" 10 100 "ph" none "T9") demoLedger).1 :=
  ⟨(c5_lot_number_uniqueness_invariant sha0 bl0 b30 (fun _ => true)).1 "ENC-2"
      "Encap Two" "NSF" "FC-2" "x:y" "LOT-1" "2024-01-02" "BATCH-9" 10 100
      "ph" none "T9" demoLedger (by with_unfolding_all rfl),
   (c5_lot_number_uniqueness_invariant sha0 bl0 b30 (fun _ => true)).2 _
      demoLedger (by with_unfolding_all rfl)⟩

theorem emit_receipt_fst (sha bl : Bytes → String) (b3 : Bytes → Bytes)
    (rt : String) (payload : Dict) (ts : String) (tid : Option String)
    (L L2 : Ledger) :
    (emit_receipt sha bl b3 rt payload ts tid L).1 =
    (emit_receipt sha bl b3 rt payload ts tid L2).1 := rfl

theorem detect_yield_anomaly_snd (sha bl : Bytes → String) (b3 : Bytes → Bytes)
    (r : Receipt) (ts : String) (L L2 : Ledger) :
    (detect_yield_anomaly sha bl b3 r ts L).2 =
    (detect_yield_anomaly sha bl b3 r ts L2).2 := by
  simp only [detect_yield_anomaly]
  by_cases h1 : valEqB (valGet r "yield_status") (.str "HIGH_DILUTION_FLAG") = true
  · simp only [if_pos h1]
    exact congrArg some (emit_receipt_fst sha bl b3 _ _ _ _ L L2)
  · simp only [if_neg h1]
    by_cases h2 : valEqB (valGet r "yield_status") (.str "LOW") = true
    · simp only [if_pos h2]
      exact congrArg some (emit_receipt_fst sha bl b3 _ _ _ _ L L2)
    · simp only [if_neg h2]

theorem detect_yield_anomaly_fst (sha bl : Bytes → String) (b3 : Bytes → Bytes)
    (r : Receipt) (ts : String) (L : Ledger) :
    (detect_yield_anomaly sha bl b3 r ts L).1 =
    L ++ ((detect_yield_anomaly sha bl b3 r ts L).2).toList := by
  simp only [detect_yield_anomaly]
  by_cases h1 : valEqB (valGet r "yield_status") (.str "HIGH_DILUTION_FLAG") = true
  · simp only [if_pos h1]
    dsimp only [Option.toList]
    exact emit_receipt_snd sha bl b3 _ _ _ _ L
  · simp only [if_neg h1]
    by_cases h2 : valEqB (valGet r "yield_status") (.str "LOW") = true
    · simp only [if_pos h2]
      dsimp only [Option.toList]
      exact emit_receipt_snd sha bl b3 _ _ _ _ L
    · simp only [if_neg h2]
      dsimp only [Option.toList]
      exact (List.append_nil L).symm

theorem detect_label_fraud_snd (sha bl : Bytes → String) (b3 : Bytes → Bytes)
    (r : Receipt) (ts : String) (L L2 : Ledger) :
    (detect_label_fraud sha bl b3 r ts L).2 =
    (detect_label_fraud sha bl b3 r ts L2).2 := by
  simp only [detect_label_fraud]
  by_cases h1 : (!isTruthy ((dictGet (objOf ((dictGet r "potency").getD (.obj []))) "potency_pass").getD (.bool true))) = true
  · simp only [if_pos h1]
    exact congrArg some (emit_receipt_fst sha bl b3 _ _ _ _ L L2)
  · simp only [if_neg h1]

theorem detect_label_fraud_fst (sha bl : Bytes → String) (b3 : Bytes → Bytes)
    (r : Receipt) (ts : String) (L : Ledger) :
    (detect_label_fraud sha bl b3 r ts L).1 =
    L ++ ((detect_label_fraud sha bl b3 r ts L).2).toList := by
  simp only [detect_label_fraud]
  by_cases h1 : (!isTruthy ((dictGet (objOf ((dictGet r "potency").getD (.obj []))) "potency_pass").getD (.bool true))) = true
  · simp only [if_pos h1]
    dsimp only [Option.toList]
    exact emit_receipt_snd sha bl b3 _ _ _ _ L
  · simp only [if_neg h1]
    dsimp only [Option.toList]
    exact (List.append_nil L).symm

theorem detect_contaminant_exceed_snd (sha bl : Bytes → String) (b3 : Bytes → Bytes)
    (r : Receipt) (ts : String) (L L2 : Ledger) :
    (detect_contaminant_exceed sha bl b3 r ts L).2 =
    (detect_contaminant_exceed sha bl b3 r ts L2).2 := by
  simp only [detect_contaminant_exceed]
  by_cases h1 : (!isTruthy ((dictGet (objOf ((dictGet r "contaminants").getD (.obj []))) "all_pass").getD (.bool true))) = true
  · simp only [if_pos h1]
    exact congrArg some (emit_receipt_fst sha bl b3 _ _ _ _ L L2)
  · simp only [if_neg h1]

theorem detect_contaminant_exceed_fst (sha bl : Bytes → String) (b3 : Bytes → Bytes)
    (r : Receipt) (ts : String) (L : Ledger) :
    (detect_contaminant_exceed sha bl b3 r ts L).1 =
    L ++ ((detect_contaminant_exceed sha bl b3 r ts L).2).toList := by
  simp only [detect_contaminant_exceed]
  by_cases h1 : (!isTruthy ((dictGet (objOf ((dictGet r "contaminants").getD (.obj []))) "all_pass").getD (.bool true))) = true
  · simp only [if_pos h1]
    dsimp only [Option.toList]
    exact emit_receipt_snd sha bl b3 _ _ _ _ L
  · simp only [if_neg h1]
    dsimp only [Option.toList]
    exact (List.append_nil L).symm

theorem detect_cold_chain_degradation_snd (sha bl : Bytes → String)
    (b3 : Bytes → Bytes) (r : Receipt) (ts : String) (L L2 : Ledger) :
    (detect_cold_chain_degradation sha bl b3 r ts L).2 =
    (detect_cold_chain_degradation sha bl b3 r ts L2).2 := by
  simp only [detect_cold_chain_degradation]
  by_cases h1 : (!isTruthy ((dictGet (objOf ((dictGet r "cold_chain").getD (.obj []))) "enabled").getD (.bool false))) = true
  · simp only [if_pos h1]
  · simp only [if_neg h1]
    by_cases h2 : (!(valEqB (valGet (objOf ((dictGet r "cold_chain").getD (.obj []))) "max_temp_c") .null) &&
        decide (numOf (valGet (objOf ((dictGet r "cold_chain").getD (.obj []))) "max_temp_c") > 8)) = true
    · simp only [if_pos h2]
      exact congrArg some (emit_receipt_fst sha bl b3 _ _ _ _ L L2)
    · simp only [if_neg h2]
      by_cases h3 : numOf ((dictGet (objOf ((dictGet r "cold_chain").getD (.obj []))) "deviations_count").getD (.int 0)) > 3
      · simp only [if_pos h3]
        exact congrArg some (emit_receipt_fst sha bl b3 _ _ _ _ L L2)
      · simp only [if_neg h3]

theorem detect_cold_chain_degradation_fst (sha bl : Bytes → String)
    (b3 : Bytes → Bytes) (r : Receipt) (ts : String) (L : Ledger) :
    (detect_cold_chain_degradation sha bl b3 r ts L).1 =
    L ++ ((detect_cold_chain_degradation sha bl b3 r ts L).2).toList := by
  simp only [detect_cold_chain_degradation]
  by_cases h1 : (!isTruthy ((dictGet (objOf ((dictGet r "cold_chain").getD (.obj []))) "enabled").getD (.bool false))) = true
  · simp only [if_pos h1]
    dsimp only [Option.toList]
    exact (List.append_nil L).symm
  · simp only [if_neg h1]
    by_cases h2 : (!(valEqB (valGet (objOf ((dictGet r "cold_chain").getD (.obj []))) "max_temp_c") .null) &&
        decide (numOf (valGet (objOf ((dictGet r "cold_chain").getD (.obj []))) "max_temp_c") > 8)) = true
    · simp only [if_pos h2]
      dsimp only [Option.toList]
      exact emit_receipt_snd sha bl b3 _ _ _ _ L
    · simp only [if_neg h2]
      by_cases h3 : numOf ((dictGet (objOf ((dictGet r "cold_chain").getD (.obj []))) "deviations_count").getD (.int 0)) > 3
      · simp only [if_pos h3]
        dsimp only [Option.toList]
        exact emit_receipt_snd sha bl b3 _ _ _ _ L
      · simp only [if_neg h3]
        dsimp only [Option.toList]
        exact (List.append_nil L).symm

theorem fraudStep_snd (sha bl : Bytes → String) (b3 : Bytes → Bytes)
    (r : Receipt) (ts : String) (L L2 : Ledger) :
    (fraudStep sha bl b3 r ts L).2 = (fraudStep sha bl b3 r ts L2).2 := by
  simp only [fraudStep]
  by_cases h1 : valEqB (valGet r "receipt_type") (.str "processing") = true
  · simp only [if_pos h1]
    exact congrArg Option.toList (detect_yield_anomaly_snd sha bl b3 r ts L L2)
  · simp only [if_neg h1]
    by_cases h2 : valEqB (valGet r "receipt_type") (.str "testing") = true
    · simp only [if_pos h2]
      rw [detect_label_fraud_snd sha bl b3 r ts L L2,
        detect_contaminant_exceed_snd sha bl b3 r ts
          (detect_label_fraud sha bl b3 r ts L).1
          (detect_label_fraud sha bl b3 r ts L2).1]
    · simp only [if_neg h2]
      by_cases h3 : valEqB (valGet r "receipt_type") (.str "distribution") = true
      · simp only [if_pos h3]
        exact congrArg Option.toList
          (detect_cold_chain_degradation_snd sha bl b3 r ts L L2)
      · simp only [if_neg h3]

theorem fraudStep_fst (sha bl : Bytes → String) (b3 : Bytes → Bytes)
    (r : Receipt) (ts : String) (L : Ledger) :
    (fraudStep sha bl b3 r ts L).1 = L ++ (fraudStep sha bl b3 r ts L).2 := by
  simp only [fraudStep]
  by_cases h1 : valEqB (valGet r "receipt_type") (.str "processing") = true
  · simp only [if_pos h1]
    exact detect_yield_anomaly_fst sha bl b3 r ts L
  · simp only [if_neg h1]
    by_cases h2 : valEqB (valGet r "receipt_type") (.str "testing") = true
    · simp only [if_pos h2]
      rw [detect_contaminant_exceed_fst sha bl b3 r ts
          (detect_label_fraud sha bl b3 r ts L).1,
        detect_label_fraud_fst sha bl b3 r ts L, List.append_assoc]
    · simp only [if_neg h2]
      by_cases h3 : valEqB (valGet r "receipt_type") (.str "distribution") = true
      · simp only [if_pos h3]
        exact detect_cold_chain_degradation_fst sha bl b3 r ts L
      · simp only [if_neg h3]
        exact (List.append_nil L).symm

/-- Claim C6 (amended): `run_all_fraud_checks` walks the given chain in its
input order, dispatching by receipt type; the returned anomaly list is the
concatenation, in input order, of the anomalies detected for each receipt,
and every anomaly is durably appended to the ledger in that same order. -/
theorem c6_run_all_fraud_checks_input_order (sha bl : Bytes → String) (b3 : Bytes → Bytes) :
    ∀ (chain : List Receipt) (ts : String) (L : Ledger),
    run_all_fraud_checks sha bl b3 chain ts L =
    (L ++ (chain.map (anomaliesFor sha bl b3 ts)).flatten,
     (chain.map (anomaliesFor sha bl b3 ts)).flatten) := by
  intro chain
  induction chain with
  | nil =>
    intro ts L
    simp [run_all_fraud_checks]
  | cons r rest ih =>
    intro ts L
    simp only [run_all_fraud_checks]
    rw [ih ts (fraudStep sha bl b3 r ts L).1]
    have h2 : (fraudStep sha bl b3 r ts L).2 = anomaliesFor sha bl b3 ts r :=
      fraudStep_snd sha bl b3 r ts L []
    rw [fraudStep_fst sha bl b3 r ts L, h2]
    simp [List.append_assoc]

set_option maxRecDepth 400000 in
/-- Counterexample to C6 as stated: for the chain [distBad, procHigh] the
returned anomalies are cold-chain first, then yield — the input order — not
the claimed stage order (processing, then testing, then distribution). -/
theorem c6_counterexample_not_stage_order :
    ((run_all_fraud_checks sha0 bl0 b30 [distBad, procHigh] "T9" []).2).map
      (fun r => valGet r "anomaly_type") =
    [.str "COLD_CHAIN_DEGRADATION", .str "YIELD_HIGH"] := by
  with_unfolding_all rfl


theorem hopOk_some_elim {receipts : Ledger} {current : Receipt}
    {expected : String} {t : Receipt}
    (h : hopOk receipts current expected = some t) :
    isTruthy (valGet current "previous_hash") = true ∧
    findReceiptByHash (valGet current "previous_hash") receipts = some t ∧
    valEqB (valGet t "receipt_type") (.str expected) = true := by
  unfold hopOk at h
  by_cases h1 : (!isTruthy (valGet current "previous_hash")) = true
  · rw [if_pos h1] at h; cases h
  · rw [if_neg h1] at h
    have h1t : isTruthy (valGet current "previous_hash") = true := by
      simpa using h1
    cases hf : findReceiptByHash (valGet current "previous_hash") receipts with
    | none => rw [hf] at h; cases h
    | some pr =>
      rw [hf] at h
      dsimp only at h
      by_cases h3 : valEqB (valGet pr "receipt_type") (.str expected) = true
      · rw [if_pos h3] at h
        injection h with h4
        subst h4
        exact ⟨h1t, rfl, h3⟩
      · rw [if_neg h3] at h; cases h

theorem walkBack_cons_of_hopOk {receipts : Ledger} {expected : String}
    {rest : List String} {current pr : Receipt}
    (h : hopOk receipts current expected = some pr) :
    walkBack receipts (expected :: rest) current =
    (pr :: (walkBack receipts rest pr).1, (walkBack receipts rest pr).2) := by
  obtain ⟨h1, h2, h3⟩ := hopOk_some_elim h
  rw [walkBack]
  rw [if_neg (by rw [h1]; exact fun hc => Bool.noConfusion hc), h2]
  dsimp only
  rw [if_pos h3, List.nil_append]

theorem walkBack_cons_success {receipts : Ledger} {expected : String}
    {rest : List String} {current : Receipt}
    (h : (walkBack receipts (expected :: rest) current).2 = []) :
    ∃ pr, hopOk receipts current expected = some pr ∧
      (walkBack receipts (expected :: rest) current).1 =
        pr :: (walkBack receipts rest pr).1 ∧
      (walkBack receipts rest pr).2 = [] := by
  rw [walkBack] at h
  by_cases h1 : (!isTruthy (valGet current "previous_hash")) = true
  · rw [if_pos h1] at h; cases h
  · rw [if_neg h1] at h
    have h1t : isTruthy (valGet current "previous_hash") = true := by
      simpa using h1
    cases hf : findReceiptByHash (valGet current "previous_hash") receipts with
    | none => rw [hf] at h; cases h
    | some pr =>
      rw [hf] at h
      dsimp only at h
      by_cases h3 : valEqB (valGet pr "receipt_type") (.str expected) = true
      · rw [if_pos h3, List.nil_append] at h
        have hh : hopOk receipts current expected = some pr := by
          unfold hopOk
          rw [if_neg h1, hf]
          dsimp only
          rw [if_pos h3]
        refine ⟨pr, hh, ?_, h⟩
        rw [walkBack_cons_of_hopOk hh]
      · rw [if_neg h3] at h
        cases h



set_option maxRecDepth 400000 in
/-- Claim C2: `verify_chain` reports `chain_valid = true` exactly when the five
receipts are collected by the backward walk with the expected stage types,
every `previous_hash` link resolves, the distribution-encapsulation link
matches, and every collected receipt re-verifies; on the untampered demo
chain it reports chain_valid true, chain_length 5 and no errors. -/
theorem c2_chain_valid_iff_spec (sha bl : Bytes → String) (lot : String)
    (receipts : Ledger) (ts : String) :
    ((verify_chain sha bl lot receipts ts).chain_valid = true ↔
      chainSpec sha bl lot receipts) ∧
    ((verify_chain sha0 bl0 "LOT-1" demoLedger "TV").chain_valid = true ∧
     (verify_chain sha0 bl0 "LOT-1" demoLedger "TV").chain_length = 5 ∧
     (verify_chain sha0 bl0 "LOT-1" demoLedger "TV").errors = []) := by
  refine ⟨?_, by with_unfolding_all rfl, by with_unfolding_all rfl,
    by with_unfolding_all rfl⟩
  unfold verify_chain chainSpec
  cases hd : findDistributionByLot lot receipts with
  | none => simp
  | some dist =>
    cases he : findEncapsulationByLot lot receipts with
    | none => simp
    | some encap =>
      dsimp only
      by_cases hlink : valEqB (valGet dist "previous_hash")
          (valGet encap "payload_hash") = true
      · rw [if_pos hlink]
        constructor
        · intro hv
          rw [Bool.and_eq_true] at hv
          obtain ⟨hemp, hlen⟩ := hv
          simp only [List.nil_append, List.isEmpty_iff, List.append_eq_nil]
            at hemp
          obtain ⟨hw2, hhash⟩ := hemp
          obtain ⟨t, ht, hw1e, hw2b⟩ := walkBack_cons_success hw2
          obtain ⟨p, hp, hw2e, hw3b⟩ := walkBack_cons_success hw2b
          obtain ⟨c, hc, hw3e, -⟩ := walkBack_cons_success hw3b
          refine ⟨hlink, t, p, c, ht, hp, hc, ?_⟩
          rw [hw1e, hw2e, hw3e] at hhash
          dsimp only [walkBack] at hhash
          simp only [List.map_eq_nil_iff, List.filter_eq_nil_iff] at hhash
          have v1 : verify_single_receipt sha bl dist = true := by
            simpa using hhash dist (by simp)
          have v2 : verify_single_receipt sha bl encap = true := by
            simpa using hhash encap (by simp)
          have v3 : verify_single_receipt sha bl t = true := by
            simpa using hhash t (by simp)
          have v4 : verify_single_receipt sha bl p = true := by
            simpa using hhash p (by simp)
          have v5 : verify_single_receipt sha bl c = true := by
            simpa using hhash c (by simp)
          simp [v1, v2, v3, v4, v5]
        · rintro ⟨-, t, p, c, h1, h2, h3, hver⟩
          rw [walkBack_cons_of_hopOk h1, walkBack_cons_of_hopOk h2,
            walkBack_cons_of_hopOk h3]
          have h5 := hver
          simp only [Bool.and_eq_true] at h5
          obtain ⟨⟨⟨⟨v1, v2⟩, v3⟩, v4⟩, v5⟩ := h5
          dsimp only [walkBack]
          simp [List.filter_cons, v1, v2, v3, v4, v5]
      · rw [if_neg hlink]
        simp [hlink]


set_option maxRecDepth 400000 in
/-- Witness for the first half of C3: changing the stored
`yield_output_kg` of the demo processing receipt from 150.0 to 999.0 makes
its re-verification fail. -/
theorem c3_single_field_tamper_detected_witness :
    verify_single_receipt sha0 bl0
      (dictSet procR "yield_output_kg" (.rat 999)) = false :=
  c3_single_field_tamper_detected.1 sha0 bl0 procR "yield_output_kg" (.rat 999)
    (of_decide_eq_true (by with_unfolding_all rfl))
    (of_decide_eq_true (by with_unfolding_all rfl))
    (of_decide_eq_true (by with_unfolding_all rfl))
    (of_decide_eq_true (by with_unfolding_all rfl))
    (of_decide_eq_true (by with_unfolding_all rfl))
    (of_decide_eq_true (by with_unfolding_all rfl))
    (fun h => absurd h (of_decide_eq_true (by with_unfolding_all rfl)))

end FishOil
